import Mathlib

/-!
# Global Fireworks: settings store and overlay lifecycle

A shallow embedding of `src/main.js`.

* JavaScript values that a settings field can hold are embedded as `Val`.
  A finite JavaScript number is embedded as the rational it denotes, so
  `Math.min` and `>` are the exact order of `ℚ`.
* A JavaScript object is the list of its own properties in insertion order.
* The plugin instance, the document, the heap of engine instances and the
  pending `script.onload` callbacks form the explicit `State`.
-/

namespace GlobalFireworks

/-! ## Values and objects -/

/-- The JavaScript values of a settings field: `undefined`, `null`, a boolean,
a finite number, or `NaN`. -/
inductive Val where
  | undefined
  | null
  | bool (b : Bool)
  | num (q : ℚ)
  | nan
  deriving DecidableEq

/-- An object: its own enumerable properties, in insertion order. -/
abbrev Obj := List (String × Val)

/-- The test `k in o` for an own property. -/
def hasProp : Obj → String → Bool
  | [], _ => false
  | (k', _) :: rest, k => if k' = k then true else hasProp rest k

/-- The read `o[k]`; an absent property reads as `undefined`. -/
def getProp : Obj → String → Val
  | [], _ => Val.undefined
  | (k', v) :: rest, k => if k' = k then v else getProp rest k

/-- The write `o[k] = v`: overwrites the property in place, or adds it last. -/
def setProp : Obj → String → Val → Obj
  | [], k, v => [(k, v)]
  | (k', v') :: rest, k, v =>
    if k' = k then (k, v) :: rest else (k', v') :: setProp rest k v

/-- The own property keys of `o`, in order. -/
def ownKeys (o : Obj) : List String := o.map Prod.fst

/-- One source of `Object.assign`: for each own key of `src`, in order,
`target[key] = src[key]`. -/
def assignFrom (target src : Obj) : Obj :=
  (ownKeys src).foldl (fun t k => setProp t k (getProp src k)) target

/-- The call `Object.assign(target, ...sources)`; a `null` or `undefined`
source (here `none`) is skipped. -/
def objectAssign (target : Obj) (sources : List (Option Obj)) : Obj :=
  sources.foldl
    (fun t src =>
      match src with
      | none => t
      | some o => assignFrom t o)
    target

/-- The coercion `ToNumber` on `Val`; the result is `num` or `nan`. -/
def toNumber : Val → Val
  | Val.undefined => Val.nan
  | Val.null => Val.num 0
  | Val.bool true => Val.num 1
  | Val.bool false => Val.num 0
  | Val.num q => Val.num q
  | Val.nan => Val.nan

/-- The call `Math.min(a, b)`. -/
def mathMin (a b : Val) : Val :=
  match toNumber a, toNumber b with
  | Val.num x, Val.num y => Val.num (min x y)
  | _, _ => Val.nan

/-- The comparison `a > b` (no operand of `Val` is a string, so both are
coerced to numbers; a `NaN` operand makes it false). -/
def jsGt (a b : Val) : Bool :=
  match toNumber a, toNumber b with
  | Val.num x, Val.num y => decide (y < x)
  | _, _ => false

/-- The truthiness of a value, as tested by `if (...)` and `!`. -/
def truthy : Val → Bool
  | Val.undefined => false
  | Val.null => false
  | Val.bool b => b
  | Val.num q => decide (q ≠ 0)
  | Val.nan => false

/-- The constant `DEFAULT_SETTINGS`. -/
def DEFAULT_SETTINGS : Obj :=
  [ ("enabled", Val.bool true),
    ("acceleration", Val.num 1.05),
    ("gravity", Val.num 1.5),
    ("opacity", Val.num 0.5),
    ("intensity", Val.num 15),
    ("particles", Val.num 50),
    ("flickering", Val.num 50),
    ("traceLength", Val.num 3),
    ("traceSpeed", Val.num 5),
    ("explosion", Val.num 5),
    ("lineWidth", Val.num 2),
    ("brightnessMin", Val.num 50),
    ("brightnessMax", Val.num 80),
    ("delayMin", Val.num 100),
    ("delayMax", Val.num 150),
    ("rocketsMin", Val.num 50),
    ("rocketsMax", Val.num 100) ]

/-- The 17 field names of a ParameterSet. -/
def parameterFields : List String :=
  [ "enabled", "acceleration", "gravity", "opacity", "intensity", "particles",
    "flickering", "traceLength", "traceSpeed", "explosion", "lineWidth",
    "brightnessMin", "brightnessMax", "delayMin", "delayMax", "rocketsMin",
    "rocketsMax" ]

/-- The settings built in `onload`:
`Object.assign({}, DEFAULT_SETTINGS, await this.loadData())`, where `R` is what
`loadData` returned (`none` for `null` or `undefined`). -/
def loadSettings (R : Option Obj) : Obj :=
  objectAssign [] [some DEFAULT_SETTINGS, R]

/-- The swap `if (s[lo] > s[hi]) [s[lo], s[hi]] = [s[hi], s[lo]]`: the right
side array is built first, then `s[lo]` and `s[hi]` are written in that order. -/
def swapIfGt (s : Obj) (lo hi : String) : Obj :=
  if jsGt (getProp s lo) (getProp s hi) then
    let a := getProp s hi
    let b := getProp s lo
    setProp (setProp s lo a) hi b
  else s

/-- The body of `saveSettings` up to the call of `saveData`: the two clamps,
then the three swaps, on `this.settings`. -/
def normalize (s : Obj) : Obj :=
  let s := setProp s "particles" (mathMin (getProp s "particles") (Val.num 200))
  let s := setProp s "intensity" (mathMin (getProp s "intensity") (Val.num 40))
  let s := swapIfGt s "delayMin" "delayMax"
  let s := swapIfGt s "brightnessMin" "brightnessMax"
  let s := swapIfGt s "rocketsMin" "rocketsMax"
  s

/-- The limits `(key, min, max, step)` of the sliders built in `display`. -/
def sliders : List (String × ℚ × ℚ × ℚ) :=
  [ ("acceleration", 0.9, 1.2, 0.01),
    ("gravity", 0, 3, 0.1),
    ("opacity", 0.1, 1, 0.05),
    ("intensity", 1, 30, 1),
    ("particles", 10, 150, 5),
    ("flickering", 0, 100, 5),
    ("traceLength", 1, 10, 1),
    ("traceSpeed", 1, 10, 1),
    ("explosion", 1, 10, 1),
    ("lineWidth", 1, 5, 1),
    ("brightnessMin", 10, 100, 5),
    ("brightnessMax", 10, 100, 5),
    ("delayMin", 20, 500, 10),
    ("delayMax", 50, 1000, 25),
    ("rocketsMin", 0, 100, 5),
    ("rocketsMax", 0, 100, 5) ]

/-- The field `key` of `s` is a number within the limits `lo` and `hi`. -/
def withinLimits (s : Obj) (key : String) (lo hi : ℚ) : Bool :=
  match getProp s key with
  | Val.num q => decide (lo ≤ q) && decide (q ≤ hi)
  | _ => false

/-- Every slider's field of `s` lies within that slider's limits. -/
def inSliderLimits (s : Obj) : Bool :=
  sliders.all (fun sl => withinLimits s sl.1 sl.2.1 sl.2.2.1)

/-! ## The document -/

/-- An element attached to the document: its identity, tag name, class list,
the identities of its ancestors below `head` or `body` (outermost first), its
inline style and its `src`. -/
structure Elem where
  id : Nat
  tag : String
  classes : List String
  ancestors : List Nat
  style : List (String × String)
  src : String
  deriving DecidableEq

/-- The attached elements, in document order: those below `head`, then those
below `body`. -/
structure Document where
  head : List Elem
  body : List Elem
  deriving DecidableEq

/-- All attached elements in document order. -/
def Document.elems (d : Document) : List Elem := d.head ++ d.body

/-- The selector `.c` matches `e`. -/
def hasClass (c : String) (e : Elem) : Bool := decide (c ∈ e.classes)

/-- The selector `t` (a tag name) matches `e`. -/
def hasTag (t : String) (e : Elem) : Bool := decide (e.tag = t)

/-- The call `document.querySelector("." + c)`: first match in document order. -/
def querySelectorClass (d : Document) (c : String) : Option Elem :=
  d.elems.find? (hasClass c)

/-- The call `document.querySelectorAll(t)` for a tag name `t`. -/
def querySelectorAllTag (d : Document) (t : String) : List Elem :=
  d.elems.filter (hasTag t)

/-- The elements left when the element `i` and its descendants are detached. -/
def detach (els : List Elem) (i : Nat) : List Elem :=
  els.filter (fun e => decide (e.id ≠ i ∧ i ∉ e.ancestors))

/-- The call `el.remove()` for the element of identity `i`. -/
def Document.removeElem (d : Document) (i : Nat) : Document :=
  { head := detach d.head i, body := detach d.body i }

/-- The call `document.body.appendChild(e)`. -/
def Document.appendToBody (d : Document) (e : Elem) : Document :=
  { d with body := d.body ++ [e] }

/-- The call `document.head.appendChild(e)`. -/
def Document.appendToHead (d : Document) (e : Elem) : Document :=
  { d with head := d.head ++ [e] }

/-- Places `c` right after the run of descendants of `p` that starts the list. -/
def insertAfterSubtree : List Elem → Nat → Elem → List Elem
  | [], _, c => [c]
  | e :: rest, p, c =>
    if p ∈ e.ancestors then e :: insertAfterSubtree rest p c else c :: e :: rest

/-- Makes `c` the last child of the element `p`; nothing is attached when `p`
is not in the list. -/
def insertChild : List Elem → Nat → Elem → List Elem
  | [], _, _ => []
  | e :: rest, p, c =>
    if e.id = p then
      e :: insertAfterSubtree rest p { c with ancestors := e.ancestors ++ [p] }
    else e :: insertChild rest p c

/-- The call `p.appendChild(c)` for an element `p` that may be detached. -/
def Document.appendChild (d : Document) (p : Nat) (c : Elem) : Document :=
  if d.head.any (fun e => decide (e.id = p)) then
    { d with head := insertChild d.head p c }
  else { d with body := insertChild d.body p c }

/-! ## The plugin state -/

/-- An engine instance: the surface it is bound to, its configuration, and
whether it has been started and not stopped. -/
structure Engine where
  container : Nat
  options : Obj
  running : Bool
  deriving DecidableEq

/-- The field `this.fireworks`: never assigned, `null`, or a reference to the
engine instance at an address of the heap. -/
inductive Handle where
  | undefined
  | null
  | ref (addr : Nat)
  deriving DecidableEq

/-- The plugin instance and its environment: `this.settings`, the record last
handed to `saveData` (or returned by `loadData`), `this.fireworks`, the
document, every engine instance constructed so far, whether `window.Fireworks`
is defined, the surfaces captured by the `script.onload` callbacks still
waiting, and the next fresh element identity. -/
structure State where
  settings : Obj
  saved : Option Obj
  fireworks : Handle
  document : Document
  engines : List Engine
  windowFireworks : Bool
  pendingLoads : List Nat
  nextId : Nat
  deriving DecidableEq

/-- The configuration object built in `initFireworks`; a nested field is named
by its path. -/
def engineOptions (s : Obj) : Obj :=
  [ ("autoresize", Val.bool true),
    ("acceleration", getProp s "acceleration"),
    ("gravity", getProp s "gravity"),
    ("opacity", getProp s "opacity"),
    ("intensity", getProp s "intensity"),
    ("particles", getProp s "particles"),
    ("flickering", getProp s "flickering"),
    ("traceLength", getProp s "traceLength"),
    ("traceSpeed", getProp s "traceSpeed"),
    ("explosion", getProp s "explosion"),
    ("lineWidth.explosion.min", Val.num 1),
    ("lineWidth.explosion.max", getProp s "lineWidth"),
    ("lineWidth.trace.min", Val.num 1),
    ("lineWidth.trace.max", getProp s "lineWidth"),
    ("brightness.min", getProp s "brightnessMin"),
    ("brightness.max", getProp s "brightnessMax"),
    ("delay.min", getProp s "delayMin"),
    ("delay.max", getProp s "delayMax"),
    ("rocketsPoint.min", getProp s "rocketsMin"),
    ("rocketsPoint.max", getProp s "rocketsMax") ]

/-- Sets the running flag of the engine at address `a`. -/
def setRunning : List Engine → Nat → Bool → List Engine
  | [], _, _ => []
  | e :: es, 0, b => { e with running := b } :: es
  | e :: es, a + 1, b => e :: setRunning es a b

/-- A rendering canvas of identity `i`, not yet attached. -/
def canvasElem (i : Nat) : Elem :=
  { id := i, tag := "canvas", classes := [], ancestors := [], style := [], src := "" }

/-- Modelled from the spec: the external animation engine's constructor
`new Fireworks.default(container, options)`, which is not part of this
repository. The engine is "constructed with a target surface handle and a
configuration object" and spawns a child rendering canvas in its surface. The
new instance is allocated at the next heap address, which is returned. -/
def newEngine (st : State) (container : Nat) (options : Obj) : State × Nat :=
  ({ st with
      engines := st.engines ++ [{ container := container, options := options, running := false }],
      document := st.document.appendChild container (canvasElem st.nextId),
      nextId := st.nextId + 1 },
   st.engines.length)

/-- Modelled from the spec: the external engine's `start()`. -/
def engineStart (st : State) (a : Nat) : State :=
  { st with engines := setRunning st.engines a true }

/-- Modelled from the spec: the external engine's `stop()`. -/
def engineStop (st : State) (a : Nat) : State :=
  { st with engines := setRunning st.engines a false }

/-- The method `saveSettings`: normalizes `this.settings` in place and hands
that same object to `saveData`. -/
def saveSettings (st : State) : State :=
  let s := normalize st.settings
  { st with settings := s, saved := some s }

/-- The method `initFireworks(container)`. The identifier `Fireworks` resolves
only once the engine script has run. -/
def initFireworks (st : State) (container : Nat) : Except String State :=
  if st.windowFireworks then
    let r := newEngine st container (engineOptions st.settings)
    let st1 := { r.1 with fireworks := Handle.ref r.2 }
    Except.ok (engineStart st1 r.2)
  else Except.error "ReferenceError: Fireworks is not defined"

/-- The inline style given to the overlay surface. -/
def containerStyle : List (String × String) :=
  [ ("position", "fixed"), ("inset", "0"), ("pointerEvents", "none"),
    ("zIndex", "999999") ]

/-- The address the engine script is fetched from. -/
def engineScriptUrl : String :=
  "https://cdn.jsdelivr.net/npm/fireworks-js@2.x/dist/index.umd.js"

/-- The overlay surface built by `startFireworks`: a `div` of class
`fireworks-container` with the inline style, of identity `i`. -/
def overlayElem (i : Nat) : Elem :=
  { id := i, tag := "div", classes := ["fireworks-container"], ancestors := [],
    style := containerStyle, src := "" }

/-- The `script` element built by `startFireworks`, of identity `i`. -/
def scriptElem (i : Nat) : Elem :=
  { id := i, tag := "script", classes := [], ancestors := [], style := [],
    src := engineScriptUrl }

/-- The method `startFireworks`. -/
def startFireworks (st : State) : Except String State :=
  if !truthy (getProp st.settings "enabled") then Except.ok st
  else if (querySelectorClass st.document "fireworks-container").isSome then Except.ok st
  else
    let container := overlayElem st.nextId
    let st1 : State :=
      { st with document := st.document.appendToBody container, nextId := st.nextId + 1 }
    if st1.windowFireworks then initFireworks st1 container.id
    else
      Except.ok
        { st1 with
            document := st1.document.appendToHead (scriptElem st1.nextId),
            pendingLoads := st1.pendingLoads ++ [container.id],
            nextId := st1.nextId + 1 }

/-- The two document statements of `stopFireworks`:
`document.querySelector(".fireworks-container")?.remove()` and then
`document.querySelectorAll("canvas").forEach(c => c.remove())`. -/
def removeOverlay (d : Document) : Document :=
  let d1 :=
    match querySelectorClass d "fireworks-container" with
    | some e => d.removeElem e.id
    | none => d
  (querySelectorAllTag d1 "canvas").foldl (fun d c => d.removeElem c.id) d1

/-- The method `stopFireworks`: `this.fireworks?.stop()`, the two document
statements, then `this.fireworks = null`. -/
def stopFireworks (st : State) : Except String State :=
  let st1 :=
    match st.fireworks with
    | Handle.ref a => engineStop st a
    | _ => st
  Except.ok { st1 with document := removeOverlay st1.document, fireworks := Handle.null }

/-- The `script.onload` callback of the `i`-th load still waiting: the script
has run, so `window.Fireworks` is defined, and `initFireworks` is called on the
surface the callback captured. -/
def scriptOnload (st : State) (i : Nat) : Except String State :=
  match st.pendingLoads.get? i with
  | none => Except.ok st
  | some c =>
    initFireworks
      { st with windowFireworks := true, pendingLoads := st.pendingLoads.eraseIdx i } c

/-- The `i`-th load still waiting fails: its callback never runs. -/
def scriptFailed (st : State) (i : Nat) : State :=
  { st with pendingLoads := st.pendingLoads.eraseIdx i }

/-- The assignment `this.plugin.settings[key] = value` followed by
`saveSettings`, as every change handler of the panel starts. -/
def changeSetting (st : State) (key : String) (value : Val) : State :=
  saveSettings { st with settings := setProp st.settings key value }

/-- The `onChange` handler of the toggle. -/
def toggleOnChange (st : State) (value : Bool) : Except String State :=
  let st1 := changeSetting st "enabled" (Val.bool value)
  if value then startFireworks st1 else stopFireworks st1

/-- The `onChange` handler of the slider of `key`. -/
def sliderOnChange (st : State) (key : String) (value : ℚ) : Except String State :=
  let st1 := changeSetting st key (Val.num value)
  match stopFireworks st1 with
  | Except.ok st2 => startFireworks st2
  | Except.error m => Except.error m

/-- The `onClick` handler of the reset button. The final `this.display()` only
redraws the panel, which is outside the state. -/
def resetOnClick (st : State) : Except String State :=
  let st1 := saveSettings { st with settings := assignFrom [] DEFAULT_SETTINGS }
  match stopFireworks st1 with
  | Except.ok st2 => startFireworks st2
  | Except.error m => Except.error m

/-- What the host provides at activation: its document and whether the engine
script has already run in this window. -/
structure Host where
  document : Document
  windowFireworks : Bool

/-- An element identity not used in `d`. -/
def freshId (d : Document) : Nat :=
  (d.elems.map (fun e => e.id)).foldl max 0 + 1

/-- The method `onload`, where `R` is what `loadData` returned. -/
def onload (host : Host) (R : Option Obj) : Except String State :=
  let st : State :=
    { settings := loadSettings R, saved := R, fireworks := Handle.undefined,
      document := host.document, engines := [],
      windowFireworks := host.windowFireworks, pendingLoads := [],
      nextId := freshId host.document }
  if truthy (getProp st.settings "enabled") then startFireworks st else Except.ok st

/-- What can happen after activation. -/
inductive Event where
  | start
  | stop
  | change (key : String) (value : Val)
  | toggle (value : Bool)
  | slider (key : String) (value : ℚ)
  | reset
  | scriptLoaded (i : Nat)
  | scriptError (i : Nat)
  | onunload

/-- One event. -/
def step (st : State) : Event → Except String State
  | Event.start => startFireworks st
  | Event.stop => stopFireworks st
  | Event.change k v => Except.ok (changeSetting st k v)
  | Event.toggle v => toggleOnChange st v
  | Event.slider k v => sliderOnChange st k v
  | Event.reset => resetOnClick st
  | Event.scriptLoaded i => scriptOnload st i
  | Event.scriptError i => Except.ok (scriptFailed st i)
  | Event.onunload => stopFireworks st

/-- A sequence of events, stopping at the first error. -/
def run : State → List Event → Except String State
  | st, [] => Except.ok st
  | st, e :: es =>
    match step st e with
    | Except.ok st1 => run st1 es
    | Except.error m => Except.error m

/-- The event calls `stopFireworks`. -/
def callsStop : Event → Bool
  | Event.stop => true
  | Event.toggle v => !v
  | Event.slider _ _ => true
  | Event.reset => true
  | Event.onunload => true
  | _ => false

/-- No event of the sequence calls `stopFireworks` while an engine-script load
is waiting. -/
def stopsAfterLoads : State → List Event → Bool
  | _, [] => true
  | st, e :: es =>
    (!callsStop e || st.pendingLoads.isEmpty) &&
      match step st e with
      | Except.ok st1 => stopsAfterLoads st1 es
      | Except.error _ => true

/-- The number of overlay surfaces in the document. -/
def overlayCount (st : State) : Nat :=
  st.document.elems.countP (hasClass "fireworks-container")

/-- The number of engine instances started and not stopped. -/
def runningCount (st : State) : Nat :=
  st.engines.countP (fun e => e.running)

/-- The three paired ranges `(min, max)` that `saveSettings` keeps ordered. -/
def rangePairs : List (String × String) :=
  [ ("delayMin", "delayMax"), ("brightnessMin", "brightnessMax"),
    ("rocketsMin", "rocketsMax") ]

/-- A state whose settings are the scenario record
`{particles: 500, delayMin: 300, delayMax: 100}` over an intensity of 15. -/
def scenarioState : State :=
  { settings :=
      [ ("particles", Val.num 500), ("intensity", Val.num 15),
        ("delayMin", Val.num 300), ("delayMax", Val.num 100) ],
    saved := none, fireworks := Handle.undefined,
    document := { head := [], body := [] }, engines := [],
    windowFireworks := false, pendingLoads := [], nextId := 0 }

/-- A state whose settings are the defaults with the delay pair inverted, each
value within the limits of its own slider. -/
def invertedDelayState : State :=
  { settings :=
      setProp (setProp DEFAULT_SETTINGS "delayMin" (Val.num 400)) "delayMax" (Val.num 60),
    saved := none, fireworks := Handle.undefined,
    document := { head := [], body := [] }, engines := [],
    windowFireworks := false, pendingLoads := [], nextId := 1 }

/-- A host with an empty document in which the engine script has not run. -/
def emptyHost : Host :=
  { document := { head := [], body := [] }, windowFireworks := false }

/-- The plugin in `emptyHost` with the default settings, before
`startFireworks` is first called. -/
def freshState : State :=
  { settings := DEFAULT_SETTINGS, saved := none, fireworks := Handle.undefined,
    document := { head := [], body := [] }, engines := [],
    windowFireworks := false, pendingLoads := [], nextId := 1 }

/-- The stopped plugin with the default settings in a window where the engine
script has already run. -/
def idleState : State :=
  { settings := DEFAULT_SETTINGS, saved := none, fireworks := Handle.null,
    document := { head := [], body := [] }, engines := [],
    windowFireworks := true, pendingLoads := [], nextId := 1 }

/-- A running plugin: one overlay surface holding the canvas of the one engine. -/
def runningState : State :=
  { settings := DEFAULT_SETTINGS, saved := none, fireworks := Handle.ref 0,
    document :=
      { head := [],
        body := [overlayElem 1, { canvasElem 2 with ancestors := [1] }] },
    engines :=
      [{ container := 1, options := engineOptions DEFAULT_SETTINGS, running := true }],
    windowFireworks := true, pendingLoads := [], nextId := 3 }

/-- A canvas of the host application, of identity `7`. -/
def hostCanvas : Elem :=
  { id := 7, tag := "canvas", classes := ["graph-view"], ancestors := [],
    style := [], src := "" }

/-- A running plugin in a document that also holds a canvas of the host
application, which no engine of the overlay created. -/
def hostCanvasState : State :=
  { settings := DEFAULT_SETTINGS, saved := none, fireworks := Handle.ref 0,
    document :=
      { head := [],
        body := [hostCanvas, overlayElem 8, { canvasElem 9 with ancestors := [8] }] },
    engines :=
      [{ container := 8, options := engineOptions DEFAULT_SETTINGS, running := true }],
    windowFireworks := true, pendingLoads := [], nextId := 10 }

/-- The lifecycle invariant kept while no `stopFireworks` runs during a load:
at most one overlay surface; the only engine that can be running is the one
`this.fireworks` refers to; an engine is held only while the surface exists;
and a load is waiting only for the one surface present, with no engine held. -/
def Coherent (s : State) : Prop :=
  overlayCount s ≤ 1 ∧
  (runningCount s = 0 ∨
    (runningCount s = 1 ∧
      ∃ a e, s.fireworks = Handle.ref a ∧ s.engines[a]? = some e ∧ e.running = true)) ∧
  (∀ a, s.fireworks = Handle.ref a → overlayCount s = 1) ∧
  (s.pendingLoads ≠ [] →
    overlayCount s = 1 ∧ (∀ a, s.fireworks ≠ Handle.ref a) ∧ s.pendingLoads.length = 1)

/-- A stopped plugin whose settings are the defaults with `enabled` set to
`false`, in a window where the engine script has already run. -/
def disabledState : State :=
  { settings := setProp DEFAULT_SETTINGS "enabled" (Val.bool false),
    saved := none, fireworks := Handle.null,
    document := { head := [], body := [hostCanvas] }, engines := [],
    windowFireworks := true, pendingLoads := [], nextId := 8 }

/-! ## Objects by reference -/

/-- The calls a panel handler makes on the plugin and on the panel itself. -/
inductive Call where
  | saveSettings
  | stopFireworks
  | startFireworks
  | display
  deriving DecidableEq

/-- The plugin with its objects held by reference: the heap of objects by
address, the address bound to the module constant `DEFAULT_SETTINGS`, the
address `this.settings` refers to, the rest of the plugin state (whose own
`settings` is read through `Machine.state`), and the log of the calls made by
the handlers, oldest first. -/
structure Machine where
  heap : List Obj
  defaultsAddr : Nat
  settingsAddr : Nat
  plugin : State
  log : List Call

/-- The plugin state as the methods see it: `this.settings` is the object at
`settingsAddr`. -/
def Machine.state (m : Machine) : State :=
  { m.plugin with settings := m.heap.getD m.settingsAddr [] }

/-- A handler calls the method `c`, whose effect on the state is `f`: the call
is logged, and what the method leaves in `this.settings` is written through the
reference, in place, into the object at `settingsAddr`. -/
def callMethod (c : Call) (f : State → Except String State) (m : Machine) :
    Except String Machine :=
  match f m.state with
  | Except.ok s =>
    Except.ok
      { m with heap := m.heap.set m.settingsAddr s.settings, plugin := s,
               log := m.log ++ [c] }
  | Except.error e => Except.error e

/-- The `onClick` handler of the reset button, with objects by reference:
`this.plugin.settings = { ...DEFAULT_SETTINGS }` allocates a new object holding
the own properties of the object at `defaultsAddr` and points `this.settings`
at it; then `saveSettings`, `stopFireworks`, `startFireworks` and `display` are
called in that order. -/
def resetOnClickByRef (m : Machine) : Except String Machine :=
  let copy := assignFrom [] (m.heap.getD m.defaultsAddr [])
  let m1 : Machine := { m with heap := m.heap ++ [copy], settingsAddr := m.heap.length }
  match callMethod Call.saveSettings (fun s => Except.ok (saveSettings s)) m1 with
  | Except.error e => Except.error e
  | Except.ok m2 =>
    match callMethod Call.stopFireworks stopFireworks m2 with
    | Except.error e => Except.error e
    | Except.ok m3 =>
      match callMethod Call.startFireworks startFireworks m3 with
      | Except.error e => Except.error e
      | Except.ok m4 => callMethod Call.display Except.ok m4

/-- A running plugin whose settings object (address `1`) was modified by the
panel, next to the object of the module constant (address `0`). -/
def modifiedMachine : Machine :=
  { heap := [DEFAULT_SETTINGS, scenarioState.settings], defaultsAddr := 0,
    settingsAddr := 1, plugin := runningState, log := [] }

/-- The machine reached from `m` keeps the heap cells below `n`, holds the
settings object at the fresh address `n`, and leaves the constant where it was. -/
def Settled (m m1 : Machine) (n : Nat) : Prop :=
  m1.defaultsAddr = m.defaultsAddr ∧ m1.settingsAddr = n ∧ m1.heap.length = n + 1 ∧
  (∀ a, a < n → m1.heap[a]? = m.heap[a]?)

/-- A host with an empty document in which the engine script has already run. -/
def loadedHost : Host :=
  { document := { head := [], body := [] }, windowFireworks := true }

/-! ## The settings store -/

theorem getProp_setProp (o : Obj) (k k' : String) (v : Val) :
    getProp (setProp o k v) k' = if k = k' then v else getProp o k' := by
  induction o with
  | nil => simp [setProp, getProp]
  | cons p rest ih =>
    obtain ⟨a, b⟩ := p
    by_cases h : a = k
    · subst h
      by_cases h2 : a = k' <;> simp [setProp, getProp, h2]
    · by_cases h2 : a = k'
      · subst h2
        simp [setProp, getProp, h, Ne.symm h]
      · simp [setProp, getProp, h, h2, ih]

theorem hasProp_setProp (o : Obj) (k k' : String) (v : Val) :
    hasProp (setProp o k v) k' = (decide (k = k') || hasProp o k') := by
  induction o with
  | nil => simp [setProp, hasProp]
  | cons p rest ih =>
    obtain ⟨a, b⟩ := p
    by_cases h : a = k
    · subst h
      by_cases h2 : a = k' <;> simp [setProp, hasProp, h2]
    · by_cases h2 : a = k'
      · subst h2
        simp [setProp, hasProp, h]
      · simp [setProp, hasProp, h, h2, ih]

theorem hasProp_eq_mem (o : Obj) (k : String) :
    hasProp o k = decide (k ∈ ownKeys o) := by
  induction o with
  | nil => simp [hasProp, ownKeys]
  | cons p rest ih =>
    obtain ⟨a, b⟩ := p
    by_cases h : a = k
    · simp [hasProp, ownKeys, h]
    · have h' : ¬ k = a := fun e => h e.symm
      simp only [ownKeys] at ih
      simp [hasProp, ownKeys, h, h', ih]

theorem getProp_foldl_setProp (f : String → Val) (ks : List String) (t : Obj) (k : String) :
    getProp (ks.foldl (fun t k => setProp t k (f k)) t) k =
      if k ∈ ks then f k else getProp t k := by
  induction ks generalizing t with
  | nil => simp
  | cons a rest ih =>
    simp only [List.foldl_cons, ih, getProp_setProp, List.mem_cons]
    by_cases h1 : k ∈ rest
    · simp [h1]
    · by_cases h2 : a = k
      · subst h2; simp [h1]
      · have h3 : ¬ k = a := fun e => h2 e.symm
        simp [h1, h2, h3]

theorem hasProp_foldl_setProp (f : String → Val) (ks : List String) (t : Obj) (k : String) :
    hasProp (ks.foldl (fun t k => setProp t k (f k)) t) k =
      (decide (k ∈ ks) || hasProp t k) := by
  induction ks generalizing t with
  | nil => simp
  | cons a rest ih =>
    simp only [List.foldl_cons, ih, hasProp_setProp, List.mem_cons]
    by_cases h1 : k ∈ rest
    · simp [h1]
    · by_cases h2 : a = k
      · subst h2; simp [h1]
      · have h3 : ¬ k = a := fun e => h2 e.symm
        simp [h1, h2, h3]

theorem getProp_assignFrom (t src : Obj) (k : String) :
    getProp (assignFrom t src) k = if hasProp src k then getProp src k else getProp t k := by
  unfold assignFrom
  rw [getProp_foldl_setProp (fun k => getProp src k), hasProp_eq_mem]
  simp

theorem hasProp_assignFrom (t src : Obj) (k : String) :
    hasProp (assignFrom t src) k = (hasProp src k || hasProp t k) := by
  unfold assignFrom
  rw [hasProp_foldl_setProp (fun k => getProp src k), ← hasProp_eq_mem src k]

theorem loadSettings_none : loadSettings none = DEFAULT_SETTINGS := by rfl

theorem loadSettings_some (r : Obj) :
    loadSettings (some r) = assignFrom DEFAULT_SETTINGS r := by rfl

/-- Claim C1: for every record `R` returned by `loadData` (a mapping, possibly
partial or empty, or `null`), the settings built in `onload` contain each of
the 17 ParameterSet fields; every property read gives the value of `R` when `R`
has the key and the value of `DEFAULT_SETTINGS` otherwise; and for a `null` or
empty `R` the settings are `DEFAULT_SETTINGS` exactly. -/
theorem loadSettings_backfills (R : Option Obj) :
    parameterFields.all (fun k => hasProp (loadSettings R) k) = true ∧
    (∀ k : String, getProp (loadSettings R) k =
      match R with
      | none => getProp DEFAULT_SETTINGS k
      | some r => if hasProp r k then getProp r k else getProp DEFAULT_SETTINGS k) ∧
    loadSettings none = DEFAULT_SETTINGS ∧ loadSettings (some []) = DEFAULT_SETTINGS := by
  refine ⟨?_, ?_, rfl, rfl⟩
  · cases R with
    | none => rw [loadSettings_none]; decide
    | some r =>
      rw [loadSettings_some]
      simp only [hasProp_assignFrom, parameterFields, List.all_cons, List.all_nil]
      simp [hasProp, DEFAULT_SETTINGS]
  · intro k
    cases R with
    | none => rfl
    | some r => simp only [loadSettings_some, getProp_assignFrom]

theorem getProp_swapIfGt (s : Obj) (lo hi k : String) :
    getProp (swapIfGt s lo hi) k =
      if jsGt (getProp s lo) (getProp s hi) then
        (if hi = k then getProp s lo else if lo = k then getProp s hi else getProp s k)
      else getProp s k := by
  unfold swapIfGt
  by_cases h : jsGt (getProp s lo) (getProp s hi) = true
  · simp [h, getProp_setProp]
  · simp [h]

theorem getProp_normalize_particles (s : Obj) :
    getProp (normalize s) "particles" = mathMin (getProp s "particles") (Val.num 200) := by
  simp [normalize, getProp_swapIfGt, getProp_setProp]

theorem getProp_normalize_intensity (s : Obj) :
    getProp (normalize s) "intensity" = mathMin (getProp s "intensity") (Val.num 40) := by
  simp [normalize, getProp_swapIfGt, getProp_setProp]

theorem mathMin_num (p c : ℚ) : mathMin (Val.num p) (Val.num c) = Val.num (min p c) := by
  simp [mathMin, toNumber]

/-- Claim C2: when `particles` and `intensity` are the numbers `p` and `i`,
after `saveSettings` the in-memory settings hold `particles = min p 200` and
`intensity = min i 40`, so that both are at most `200` and `40`, and the record
handed to `saveData` is that same settings object. -/
theorem saveSettings_clamps (st : State) (p i : ℚ)
    (hp : getProp st.settings "particles" = Val.num p)
    (hi : getProp st.settings "intensity" = Val.num i) :
    getProp (saveSettings st).settings "particles" = Val.num (min p 200) ∧
    getProp (saveSettings st).settings "intensity" = Val.num (min i 40) ∧
    (saveSettings st).saved = some (saveSettings st).settings ∧
    min p 200 ≤ 200 ∧ min i 40 ≤ 40 := by
  refine ⟨?_, ?_, rfl, min_le_right _ _, min_le_right _ _⟩
  · simp only [saveSettings, getProp_normalize_particles, hp, mathMin_num]
  · simp only [saveSettings, getProp_normalize_intensity, hi, mathMin_num]

theorem saveSettings_clamps_witness :
    getProp scenarioState.settings "particles" = Val.num 500 ∧
    getProp scenarioState.settings "intensity" = Val.num 15 ∧
    getProp (saveSettings scenarioState).settings "particles" = Val.num (min 500 200) ∧
    getProp (saveSettings scenarioState).settings "intensity" = Val.num (min 15 40) ∧
    (saveSettings scenarioState).saved = some (saveSettings scenarioState).settings ∧
    min (500 : ℚ) 200 ≤ 200 ∧ min (15 : ℚ) 40 ≤ 40 :=
  ⟨rfl, rfl, saveSettings_clamps scenarioState 500 15 rfl rfl⟩

theorem jsGt_num (a b : ℚ) : jsGt (Val.num a) (Val.num b) = decide (b < a) := by
  simp [jsGt, toNumber]

theorem getProp_normalize_pair (s : Obj) (lo hi : String) (h : (lo, hi) ∈ rangePairs) :
    getProp (normalize s) lo =
      (if jsGt (getProp s lo) (getProp s hi) then getProp s hi else getProp s lo) ∧
    getProp (normalize s) hi =
      (if jsGt (getProp s lo) (getProp s hi) then getProp s lo else getProp s hi) := by
  simp only [rangePairs, List.mem_cons, Prod.mk.injEq, List.mem_singleton, List.mem_nil_iff, or_false] at h
  rcases h with ⟨rfl, rfl⟩ | ⟨rfl, rfl⟩ | ⟨rfl, rfl⟩
  · constructor <;> simp [normalize, getProp_swapIfGt, getProp_setProp]
  · constructor <;> simp [normalize, getProp_swapIfGt, getProp_setProp]
  · constructor <;> simp [normalize, getProp_swapIfGt, getProp_setProp]

/-- Claim C3: for each paired range `(lo, hi)` of `rangePairs` whose fields are
the numbers `a` and `b`, after `saveSettings` the field `lo` holds `min a b` and
the field `hi` holds `max a b`, hence `lo ≤ hi`: the two values are untouched
when `a ≤ b` and exchanged when `b < a`, never clamped; the record handed to
`saveData` is the same settings object. -/
theorem saveSettings_orders_ranges (st : State) (lo hi : String) (a b : ℚ)
    (hpair : (lo, hi) ∈ rangePairs)
    (ha : getProp st.settings lo = Val.num a)
    (hb : getProp st.settings hi = Val.num b) :
    getProp (saveSettings st).settings lo = Val.num (min a b) ∧
    getProp (saveSettings st).settings hi = Val.num (max a b) ∧
    min a b ≤ max a b ∧
    (a ≤ b →
      getProp (saveSettings st).settings lo = Val.num a ∧
      getProp (saveSettings st).settings hi = Val.num b) ∧
    (b < a →
      getProp (saveSettings st).settings lo = Val.num b ∧
      getProp (saveSettings st).settings hi = Val.num a) ∧
    (saveSettings st).saved = some (saveSettings st).settings := by
  obtain ⟨h1, h2⟩ := getProp_normalize_pair st.settings lo hi hpair
  have e1 : (saveSettings st).settings = normalize st.settings := rfl
  rw [e1, h1, h2, ha, hb, jsGt_num]
  by_cases h : b < a
  · have hba : b ≤ a := le_of_lt h
    have hnot : ¬ a ≤ b := not_le.mpr h
    simp [h, min_eq_right hba, max_eq_left hba, hnot, hba, saveSettings]
  · have hab : a ≤ b := not_lt.mp h
    simp [h, min_eq_left hab, max_eq_right hab, hab, saveSettings]

theorem saveSettings_orders_ranges_witness :
    ("delayMin", "delayMax") ∈ rangePairs ∧
    getProp scenarioState.settings "delayMin" = Val.num 300 ∧
    getProp scenarioState.settings "delayMax" = Val.num 100 ∧
    getProp (saveSettings scenarioState).settings "delayMin" = Val.num 100 ∧
    getProp (saveSettings scenarioState).settings "delayMax" = Val.num 300 := by
  have h := saveSettings_orders_ranges scenarioState "delayMin" "delayMax" 300 100 (by decide) rfl rfl
  refine ⟨by decide, rfl, rfl, ?_, ?_⟩
  · exact (h.2.2.2.2.1 (by norm_num)).1
  · exact (h.2.2.2.2.1 (by norm_num)).2

/-- Claim C8: when `enabled` is `false`, whatever the other fields, the document
and the availability of the engine, `startFireworks` returns without error
and leaves the whole state unchanged: no overlay surface, no script request and
no engine instance is created. -/
theorem startFireworks_disabled (st : State)
    (h : getProp st.settings "enabled" = Val.bool false) :
    startFireworks st = Except.ok st := by
  simp [startFireworks, h, truthy]

theorem startFireworks_disabled_witness :
    getProp disabledState.settings "enabled" = Val.bool false ∧
    startFireworks disabledState = Except.ok disabledState :=
  ⟨by decide, startFireworks_disabled disabledState (by decide)⟩

theorem stopFireworks_ok (st : State) :
    ∃ st1, stopFireworks st = Except.ok st1 ∧ st1.settings = st.settings ∧
      st1.saved = st.saved := by
  refine ⟨_, rfl, ?_, ?_⟩ <;> cases h : st.fireworks <;> simp [engineStop]

theorem initFireworks_ok (st : State) (c : Nat) (h : st.windowFireworks = true) :
    ∃ st1, initFireworks st c = Except.ok st1 ∧ st1.settings = st.settings ∧
      st1.saved = st.saved := by
  simp [initFireworks, h, engineStart, newEngine]

theorem startFireworks_ok (st : State) :
    ∃ st1, startFireworks st = Except.ok st1 ∧ st1.settings = st.settings ∧
      st1.saved = st.saved := by
  unfold startFireworks
  by_cases h1 : truthy (getProp st.settings "enabled") = true
  · by_cases h2 : (querySelectorClass st.document "fireworks-container").isSome = true
    · simp [h1, h2]
    · by_cases h3 : st.windowFireworks = true
      · simp only [h1, h2, h3]
        simpa using initFireworks_ok _ _ rfl
      · simp [h1, h2, h3]
  · simp [h1]

/-- The reset action on settings held by value: the clamps and swaps change
nothing on a copy of `DEFAULT_SETTINGS`, the handler returns without error, and
the settings and the saved record then equal `DEFAULT_SETTINGS`. -/
theorem resetOnClick_restores_defaults (st : State) :
    normalize (assignFrom [] DEFAULT_SETTINGS) = DEFAULT_SETTINGS ∧
    ∃ s1 s2 s3 : State,
      s1 = saveSettings { st with settings := assignFrom [] DEFAULT_SETTINGS } ∧
      s1.settings = DEFAULT_SETTINGS ∧ s1.saved = some DEFAULT_SETTINGS ∧
      stopFireworks s1 = Except.ok s2 ∧ startFireworks s2 = Except.ok s3 ∧
      resetOnClick st = Except.ok s3 ∧
      s3.settings = DEFAULT_SETTINGS ∧ s3.saved = some DEFAULT_SETTINGS ∧
      parameterFields.all
        (fun k => decide (getProp s3.settings k = getProp DEFAULT_SETTINGS k)) = true := by
  have hn : normalize (assignFrom [] DEFAULT_SETTINGS) = DEFAULT_SETTINGS := by rfl
  refine ⟨hn, ?_⟩
  obtain ⟨s2, h2, h2s, h2d⟩ :=
    stopFireworks_ok (saveSettings { st with settings := assignFrom [] DEFAULT_SETTINGS })
  obtain ⟨s3, h3, h3s, h3d⟩ := startFireworks_ok s2
  have e1 : (saveSettings { st with settings := assignFrom [] DEFAULT_SETTINGS }).settings
      = DEFAULT_SETTINGS := hn
  have e2 : (saveSettings { st with settings := assignFrom [] DEFAULT_SETTINGS }).saved
      = some DEFAULT_SETTINGS := by
    show some (normalize (assignFrom [] DEFAULT_SETTINGS)) = _
    rw [hn]
  refine ⟨_, s2, s3, rfl, e1, e2, h2, h3, ?_, ?_, ?_, ?_⟩
  · simp only [resetOnClick, h2, h3]
  · rw [h3s, h2s, e1]
  · rw [h3d, h2d, e2]
  · rw [h3s, h2s, e1]
    simp

theorem withinLimits_iff (s : Obj) (k : String) (lo hi : ℚ) :
    withinLimits s k lo hi = true ↔ ∃ q, getProp s k = Val.num q ∧ lo ≤ q ∧ q ≤ hi := by
  unfold withinLimits
  cases h : getProp s k <;> simp

theorem withinLimits_congr (s t : Obj) (k : String) (lo hi : ℚ)
    (h : getProp t k = getProp s k) : withinLimits t k lo hi = withinLimits s k lo hi := by
  unfold withinLimits
  rw [h]

theorem inSliderLimits_congr (s t : Obj) (h : ∀ k, getProp t k = getProp s k) :
    inSliderLimits t = inSliderLimits s := by
  unfold inSliderLimits
  congr 1
  funext sl
  exact withinLimits_congr s t _ _ _ (h _)

theorem getProp_swapIfGt_of_not_member (s : Obj) (lo hi k : String)
    (h : jsGt (getProp s lo) (getProp s hi) = true → k ≠ lo ∧ k ≠ hi) :
    getProp (swapIfGt s lo hi) k = getProp s k := by
  rw [getProp_swapIfGt]
  by_cases hc : jsGt (getProp s lo) (getProp s hi) = true
  · obtain ⟨h1, h2⟩ := h hc
    simp [hc, Ne.symm h1, Ne.symm h2]
  · simp [hc]

theorem getProp_swapIfGt_swapped (s : Obj) (lo hi : String) (hne : lo ≠ hi)
    (hc : jsGt (getProp s lo) (getProp s hi) = true) :
    getProp (swapIfGt s lo hi) lo = getProp s hi ∧
    getProp (swapIfGt s lo hi) hi = getProp s lo := by
  simp [getProp_swapIfGt, hc, Ne.symm hne]

theorem inSliderLimits_swapIfGt (s : Obj) (p : String × String) (hp : p ∈ rangePairs)
    (h : inSliderLimits s = true) : inSliderLimits (swapIfGt s p.1 p.2) = true := by
  by_cases hc : jsGt (getProp s p.1) (getProp s p.2) = true
  swap
  · simpa [swapIfGt, hc] using h
  have hall : ∀ sl ∈ sliders, withinLimits s sl.1 sl.2.1 sl.2.2.1 = true := by
    simpa [inSliderLimits, List.all_eq_true] using h
  simp only [rangePairs, List.mem_cons, List.mem_singleton, List.mem_nil_iff, or_false] at hp
  unfold inSliderLimits
  rw [List.all_eq_true]
  intro sl hsl
  rcases hp with rfl | rfl | rfl
  · obtain ⟨a, ha, ha1, ha2⟩ :=
      (withinLimits_iff _ _ _ _).mp (hall ("delayMin", 20, 500, 10) (by simp [sliders]))
    obtain ⟨b, hb, hb1, hb2⟩ :=
      (withinLimits_iff _ _ _ _).mp (hall ("delayMax", 50, 1000, 25) (by simp [sliders]))
    dsimp only at ha ha1 ha2 hb hb1 hb2 hc
    have hlt : b < a := by simpa [ha, hb, jsGt_num] using hc
    obtain ⟨e1, e2⟩ := getProp_swapIfGt_swapped s "delayMin" "delayMax" (by decide) hc
    have hsl2 := hsl
    simp only [sliders, List.mem_cons, List.mem_singleton, List.mem_nil_iff, or_false] at hsl2
    rcases hsl2 with rfl | rfl | rfl | rfl | rfl | rfl | rfl | rfl | rfl | rfl | rfl | rfl |
      rfl | rfl | rfl | rfl
    all_goals first
      | (rw [withinLimits_congr s _ _ _ _
            (getProp_swapIfGt_of_not_member s _ _ _ (fun _ => by decide))]
         exact hall _ hsl)
      | (dsimp only
         rw [withinLimits_iff]
         exact ⟨b, by rw [e1, hb], by linarith, by linarith⟩)
      | (dsimp only
         rw [withinLimits_iff]
         exact ⟨a, by rw [e2, ha], by linarith, by linarith⟩)
  · obtain ⟨a, ha, ha1, ha2⟩ :=
      (withinLimits_iff _ _ _ _).mp (hall ("brightnessMin", 10, 100, 5) (by simp [sliders]))
    obtain ⟨b, hb, hb1, hb2⟩ :=
      (withinLimits_iff _ _ _ _).mp (hall ("brightnessMax", 10, 100, 5) (by simp [sliders]))
    dsimp only at ha ha1 ha2 hb hb1 hb2 hc
    have hlt : b < a := by simpa [ha, hb, jsGt_num] using hc
    obtain ⟨e1, e2⟩ := getProp_swapIfGt_swapped s "brightnessMin" "brightnessMax" (by decide) hc
    have hsl2 := hsl
    simp only [sliders, List.mem_cons, List.mem_singleton, List.mem_nil_iff, or_false] at hsl2
    rcases hsl2 with rfl | rfl | rfl | rfl | rfl | rfl | rfl | rfl | rfl | rfl | rfl | rfl |
      rfl | rfl | rfl | rfl
    all_goals first
      | (rw [withinLimits_congr s _ _ _ _
            (getProp_swapIfGt_of_not_member s _ _ _ (fun _ => by decide))]
         exact hall _ hsl)
      | (dsimp only
         rw [withinLimits_iff]
         exact ⟨b, by rw [e1, hb], by linarith, by linarith⟩)
      | (dsimp only
         rw [withinLimits_iff]
         exact ⟨a, by rw [e2, ha], by linarith, by linarith⟩)
  · obtain ⟨a, ha, ha1, ha2⟩ :=
      (withinLimits_iff _ _ _ _).mp (hall ("rocketsMin", 0, 100, 5) (by simp [sliders]))
    obtain ⟨b, hb, hb1, hb2⟩ :=
      (withinLimits_iff _ _ _ _).mp (hall ("rocketsMax", 0, 100, 5) (by simp [sliders]))
    dsimp only at ha ha1 ha2 hb hb1 hb2 hc
    have hlt : b < a := by simpa [ha, hb, jsGt_num] using hc
    obtain ⟨e1, e2⟩ := getProp_swapIfGt_swapped s "rocketsMin" "rocketsMax" (by decide) hc
    have hsl2 := hsl
    simp only [sliders, List.mem_cons, List.mem_singleton, List.mem_nil_iff, or_false] at hsl2
    rcases hsl2 with rfl | rfl | rfl | rfl | rfl | rfl | rfl | rfl | rfl | rfl | rfl | rfl |
      rfl | rfl | rfl | rfl
    all_goals first
      | (rw [withinLimits_congr s _ _ _ _
            (getProp_swapIfGt_of_not_member s _ _ _ (fun _ => by decide))]
         exact hall _ hsl)
      | (dsimp only
         rw [withinLimits_iff]
         exact ⟨b, by rw [e1, hb], by linarith, by linarith⟩)
      | (dsimp only
         rw [withinLimits_iff]
         exact ⟨a, by rw [e2, ha], by linarith, by linarith⟩)

theorem getProp_clamps_of_limits (s : Obj) (h : inSliderLimits s = true) (k : String) :
    getProp
      (setProp (setProp s "particles" (mathMin (getProp s "particles") (Val.num 200)))
        "intensity"
        (mathMin
          (getProp (setProp s "particles" (mathMin (getProp s "particles") (Val.num 200)))
            "intensity")
          (Val.num 40))) k = getProp s k := by
  have hall : ∀ sl ∈ sliders, withinLimits s sl.1 sl.2.1 sl.2.2.1 = true := by
    simpa [inSliderLimits, List.all_eq_true] using h
  obtain ⟨p, hp, hp1, hp2⟩ :=
    (withinLimits_iff _ _ _ _).mp (hall ("particles", 10, 150, 5) (by simp [sliders]))
  obtain ⟨i, hi, hi1, hi2⟩ :=
    (withinLimits_iff _ _ _ _).mp (hall ("intensity", 1, 30, 1) (by simp [sliders]))
  dsimp only at hp hp1 hp2 hi hi1 hi2
  have hpmin : mathMin (getProp s "particles") (Val.num 200) = getProp s "particles" := by
    rw [hp, mathMin_num, min_eq_left (by linarith)]
  have himin : mathMin (getProp s "intensity") (Val.num 40) = getProp s "intensity" := by
    rw [hi, mathMin_num, min_eq_left (by linarith)]
  simp only [getProp_setProp, hpmin]
  by_cases hk1 : "intensity" = k
  · subst hk1; simp [himin]
  · by_cases hk2 : "particles" = k
    · subst hk2; simp
    · simp [hk1, hk2]

/-- Claim C10: when every slider's field lies within that slider's limits, then
after `saveSettings` every field still lies within its own slider's limits, the
two clamps leave `particles` and `intensity` as they were, and every field that
is not a member of a swapped pair is unchanged; `DEFAULT_SETTINGS` lies within
the limits. -/
theorem saveSettings_keeps_slider_limits (st : State)
    (h : inSliderLimits st.settings = true) :
    inSliderLimits (saveSettings st).settings = true ∧
    getProp (saveSettings st).settings "particles" = getProp st.settings "particles" ∧
    getProp (saveSettings st).settings "intensity" = getProp st.settings "intensity" ∧
    (∀ k : String,
      (∀ p ∈ rangePairs,
        jsGt (getProp st.settings p.1) (getProp st.settings p.2) = true →
          k ≠ p.1 ∧ k ≠ p.2) →
      getProp (saveSettings st).settings k = getProp st.settings k) ∧
    inSliderLimits DEFAULT_SETTINGS = true := by
  have e1 : (saveSettings st).settings = normalize st.settings := rfl
  rw [e1]
  generalize st.settings = s at h ⊢
  have hclamp := getProp_clamps_of_limits s h
  have hunchanged : ∀ k : String,
      (∀ p ∈ rangePairs,
        jsGt (getProp s p.1) (getProp s p.2) = true → k ≠ p.1 ∧ k ≠ p.2) →
      getProp (normalize s) k = getProp s k := by
    intro k hk
    have hd := hk ("delayMin", "delayMax") (by simp [rangePairs])
    have hb := hk ("brightnessMin", "brightnessMax") (by simp [rangePairs])
    have hr := hk ("rocketsMin", "rocketsMax") (by simp [rangePairs])
    dsimp only at hd hb hr
    unfold normalize
    dsimp only
    rw [getProp_swapIfGt_of_not_member, getProp_swapIfGt_of_not_member,
      getProp_swapIfGt_of_not_member, hclamp]
    · simpa only [hclamp] using hd
    · rw [getProp_swapIfGt_of_not_member _ _ _ _ (fun _ => by decide),
        getProp_swapIfGt_of_not_member _ _ _ _ (fun _ => by decide), hclamp, hclamp]
      exact hb
    · rw [getProp_swapIfGt_of_not_member _ _ _ _ (fun _ => by decide),
        getProp_swapIfGt_of_not_member _ _ _ _ (fun _ => by decide),
        getProp_swapIfGt_of_not_member _ _ _ _ (fun _ => by decide),
        getProp_swapIfGt_of_not_member _ _ _ _ (fun _ => by decide), hclamp, hclamp]
      exact hr
  refine ⟨?_, ?_, ?_, hunchanged, ?_⟩
  · unfold normalize
    dsimp only
    apply inSliderLimits_swapIfGt _ ("rocketsMin", "rocketsMax") (by simp [rangePairs])
    apply inSliderLimits_swapIfGt _ ("brightnessMin", "brightnessMax") (by simp [rangePairs])
    apply inSliderLimits_swapIfGt _ ("delayMin", "delayMax") (by simp [rangePairs])
    rw [inSliderLimits_congr s _ hclamp]
    exact h
  · apply hunchanged
    intro p hp
    simp only [rangePairs, List.mem_cons, List.mem_singleton, List.mem_nil_iff, or_false] at hp
    rcases hp with rfl | rfl | rfl <;> intro _ <;> decide
  · apply hunchanged
    intro p hp
    simp only [rangePairs, List.mem_cons, List.mem_singleton, List.mem_nil_iff, or_false] at hp
    rcases hp with rfl | rfl | rfl <;> intro _ <;> decide
  · simp [inSliderLimits, sliders, withinLimits, getProp, DEFAULT_SETTINGS]
    norm_num

theorem elems_removeElem (d : Document) (i : Nat) :
    (d.removeElem i).elems = detach d.elems i := by
  simp [Document.removeElem, Document.elems, detach]

theorem countP_detach_le (p : Elem → Bool) (l : List Elem) (i : Nat) :
    (detach l i).countP p ≤ l.countP p :=
  List.Sublist.countP_le _ (List.filter_sublist l)

theorem countP_filter_lt (p q : Elem → Bool) (l : List Elem) (e : Elem)
    (he : e ∈ l) (hp : p e = true) (hq : q e = false) :
    (l.filter q).countP p < l.countP p := by
  induction l with
  | nil => simp at he
  | cons a t ih =>
    rcases List.mem_cons.mp he with rfl | ht
    · have hle : (t.filter q).countP p ≤ t.countP p :=
        List.Sublist.countP_le _ (List.filter_sublist t)
      simp only [List.filter_cons, hq, List.countP_cons, hp]
      simp
      omega
    · have := ih ht
      by_cases hqa : q a = true
      · simp only [List.filter_cons, hqa, List.countP_cons, if_true]
        omega
      · simp only [List.filter_cons, hqa, List.countP_cons]
        simp
        omega

theorem countP_insertAfterSubtree (p : Elem → Bool) (l : List Elem) (i : Nat) (c : Elem) :
    (insertAfterSubtree l i c).countP p = l.countP p + (if p c then 1 else 0) := by
  induction l with
  | nil => simp [insertAfterSubtree, List.countP_cons]
  | cons a t ih =>
    by_cases h : i ∈ a.ancestors
    · simp only [insertAfterSubtree, h, if_true, List.countP_cons, ih]
      omega
    · simp only [insertAfterSubtree, h, if_false, List.countP_cons]

theorem countP_insertChild (p : Elem → Bool) (l : List Elem) (i : Nat) (c : Elem)
    (hc : ∀ anc, p { c with ancestors := anc } = false) :
    (insertChild l i c).countP p = l.countP p := by
  induction l with
  | nil => simp [insertChild]
  | cons a t ih =>
    by_cases h : a.id = i
    · simp only [insertChild, h, if_true, List.countP_cons, countP_insertAfterSubtree, hc]
      simp
    · simp only [insertChild, h, if_false, List.countP_cons, ih]

theorem countP_appendChild (p : Elem → Bool) (d : Document) (i : Nat) (c : Elem)
    (hc : ∀ anc, p { c with ancestors := anc } = false) :
    (d.appendChild i c).elems.countP p = d.elems.countP p := by
  unfold Document.appendChild
  split <;> simp [Document.elems, List.countP_append, countP_insertChild p _ i c hc]

theorem setRunning_append_length (es : List Engine) (e : Engine) (b : Bool) :
    setRunning (es ++ [e]) es.length b = es ++ [{ e with running := b }] := by
  induction es with
  | nil => simp [setRunning]
  | cons a t ih => simp [setRunning, ih]

theorem countP_setRunning_false_le (es : List Engine) (a : Nat) :
    (setRunning es a false).countP (fun e => e.running) ≤ es.countP (fun e => e.running) := by
  induction es generalizing a with
  | nil => simp [setRunning]
  | cons x t ih =>
    cases a with
    | zero =>
      simp only [setRunning, List.countP_cons]
      simp
    | succ n =>
      simp only [setRunning, List.countP_cons]
      have := ih n
      omega

theorem mem_foldl_removeElem (cs : List Elem) (d : Document) (x : Elem) :
    x ∈ (cs.foldl (fun d c => d.removeElem c.id) d).elems ↔
      x ∈ d.elems ∧ ∀ c ∈ cs, x.id ≠ c.id ∧ c.id ∉ x.ancestors := by
  induction cs generalizing d with
  | nil => simp
  | cons a t ih =>
    simp only [List.foldl_cons, ih, elems_removeElem, detach, List.mem_filter,
      decide_eq_true_eq, List.mem_cons, forall_eq_or_imp]
    tauto

theorem countP_foldl_removeElem_le (p : Elem → Bool) (cs : List Elem) (d : Document) :
    (cs.foldl (fun d c => d.removeElem c.id) d).elems.countP p ≤ d.elems.countP p := by
  induction cs generalizing d with
  | nil => simp
  | cons a t ih =>
    simp only [List.foldl_cons]
    refine le_trans (ih _) ?_
    rw [elems_removeElem]
    exact countP_detach_le p _ _

theorem querySelectorAllTag_after_removal (d : Document) (t : String) :
    querySelectorAllTag
      ((querySelectorAllTag d t).foldl (fun d c => d.removeElem c.id) d) t = [] := by
  unfold querySelectorAllTag
  rw [List.filter_eq_nil_iff]
  intro x hx hxt
  rw [mem_foldl_removeElem] at hx
  obtain ⟨hx1, hx2⟩ := hx
  have hmem : x ∈ List.filter (hasTag t) d.elems := List.mem_filter.mpr ⟨hx1, hxt⟩
  exact (hx2 x hmem).1 rfl

theorem overlayCount_eq_zero_iff (s : State) :
    overlayCount s = 0 ↔ querySelectorClass s.document "fireworks-container" = none := by
  unfold overlayCount querySelectorClass
  rw [List.countP_eq_zero, List.find?_eq_none]

theorem countP_removeElem_found (d : Document) (c : String) (e : Elem)
    (h : querySelectorClass d c = some e) (h1 : d.elems.countP (hasClass c) ≤ 1) :
    (d.removeElem e.id).elems.countP (hasClass c) = 0 := by
  unfold querySelectorClass at h
  have hp : hasClass c e = true := List.find?_some h
  have hm : e ∈ d.elems := List.mem_of_find?_eq_some h
  rw [elems_removeElem]
  have := countP_filter_lt (hasClass c) (fun x => decide (x.id ≠ e.id ∧ e.id ∉ x.ancestors))
    d.elems e hm hp (by simp)
  unfold detach
  omega

theorem countP_removeOverlay_le (d : Document) :
    (removeOverlay d).elems.countP (hasClass "fireworks-container") ≤
      d.elems.countP (hasClass "fireworks-container") := by
  unfold removeOverlay
  refine le_trans (countP_foldl_removeElem_le _ _ _) ?_
  cases hq : querySelectorClass d "fireworks-container" with
  | none => exact le_refl _
  | some e =>
    simp only
    rw [elems_removeElem]
    exact countP_detach_le _ _ _

theorem query_none_of_countP (d : Document) (c : String)
    (h : d.elems.countP (hasClass c) = 0) : querySelectorClass d c = none := by
  unfold querySelectorClass
  rw [List.find?_eq_none]
  exact List.countP_eq_zero.mp h

theorem countP_of_query_none (d : Document) (c : String)
    (h : querySelectorClass d c = none) : d.elems.countP (hasClass c) = 0 := by
  unfold querySelectorClass at h
  rw [List.find?_eq_none] at h
  exact List.countP_eq_zero.mpr h

theorem countP_removeOverlay_eq_zero (d : Document)
    (h1 : d.elems.countP (hasClass "fireworks-container") ≤ 1) :
    (removeOverlay d).elems.countP (hasClass "fireworks-container") = 0 := by
  unfold removeOverlay
  cases hq : querySelectorClass d "fireworks-container" with
  | none =>
    have := countP_foldl_removeElem_le (hasClass "fireworks-container")
      (querySelectorAllTag d "canvas") d
    have h0 := countP_of_query_none d _ hq
    simp only
    omega
  | some e =>
    have h0 := countP_removeElem_found d _ e hq h1
    have := countP_foldl_removeElem_le (hasClass "fireworks-container")
      (querySelectorAllTag (d.removeElem e.id) "canvas") (d.removeElem e.id)
    simp only
    omega

theorem querySelectorAllTag_removeOverlay (d : Document) :
    querySelectorAllTag (removeOverlay d) "canvas" = [] := by
  unfold removeOverlay
  exact querySelectorAllTag_after_removal _ _

theorem removeOverlay_fixed (d : Document)
    (h1 : querySelectorClass d "fireworks-container" = none)
    (h2 : querySelectorAllTag d "canvas" = []) : removeOverlay d = d := by
  simp [removeOverlay, h1, h2]

theorem stopFireworks_eq (st : State) :
    stopFireworks st = Except.ok
      { st with
          engines :=
            (match st.fireworks with
             | Handle.ref a => setRunning st.engines a false
             | _ => st.engines),
          document := removeOverlay st.document, fireworks := Handle.null } := by
  unfold stopFireworks
  cases st.fireworks <;> simp [engineStop]

theorem initFireworks_eq (st : State) (c : Nat) (h : st.windowFireworks = true) :
    initFireworks st c = Except.ok
      { st with
          engines := st.engines ++
            [{ container := c, options := engineOptions st.settings, running := true }],
          document := st.document.appendChild c (canvasElem st.nextId),
          nextId := st.nextId + 1,
          fireworks := Handle.ref st.engines.length } := by
  simp [initFireworks, h, newEngine, engineStart, setRunning_append_length]

theorem hasClass_canvasElem (i : Nat) (anc : List Nat) :
    hasClass "fireworks-container" { canvasElem i with ancestors := anc } = false := by
  simp [hasClass, canvasElem]

theorem overlayCount_initFireworks (st : State) (c : Nat) (h : st.windowFireworks = true) :
    ∃ s1, initFireworks st c = Except.ok s1 ∧ overlayCount s1 = overlayCount st ∧
      s1.engines = st.engines ++
        [{ container := c, options := engineOptions st.settings, running := true }] ∧
      s1.fireworks = Handle.ref st.engines.length ∧
      s1.pendingLoads = st.pendingLoads ∧ s1.windowFireworks = true ∧
      s1.settings = st.settings := by
  refine ⟨_, initFireworks_eq st c h, ?_, rfl, rfl, rfl, h, rfl⟩
  exact countP_appendChild _ _ _ _ (hasClass_canvasElem _)

theorem startFireworks_noop (st : State)
    (h : truthy (getProp st.settings "enabled") = false ∨ overlayCount st ≠ 0) :
    startFireworks st = Except.ok st := by
  unfold startFireworks
  rcases h with h | h
  · simp [h]
  · have : (querySelectorClass st.document "fireworks-container").isSome = true := by
      cases hq : querySelectorClass st.document "fireworks-container" with
      | none => exact absurd ((overlayCount_eq_zero_iff st).mpr hq) h
      | some e => rfl
    simp [this]

theorem startFireworks_create (st : State)
    (he : truthy (getProp st.settings "enabled") = true) (h0 : overlayCount st = 0) :
    ∃ s1, startFireworks st = Except.ok s1 ∧ overlayCount s1 = 1 ∧
      s1.settings = st.settings ∧ s1.windowFireworks = st.windowFireworks ∧
      (st.windowFireworks = true →
        s1.engines = st.engines ++
          [{ container := st.nextId, options := engineOptions st.settings, running := true }] ∧
        s1.fireworks = Handle.ref st.engines.length ∧
        s1.pendingLoads = st.pendingLoads) ∧
      (st.windowFireworks = false →
        s1.engines = st.engines ∧ s1.fireworks = st.fireworks ∧
        s1.pendingLoads = st.pendingLoads ++ [st.nextId]) := by
  have hq : querySelectorClass st.document "fireworks-container" = none :=
    (overlayCount_eq_zero_iff st).mp h0
  have hc0 : List.countP (hasClass "fireworks-container") st.document.elems = 0 := h0
  have hc1 : List.countP (hasClass "fireworks-container") st.document.head = 0 := by
    simp only [Document.elems, List.countP_append] at hc0; omega
  have hc2 : List.countP (hasClass "fireworks-container") st.document.body = 0 := by
    simp only [Document.elems, List.countP_append] at hc0; omega
  have hov : hasClass "fireworks-container" (overlayElem st.nextId) = true := by
    simp [hasClass, overlayElem]
  have hsc : hasClass "fireworks-container" (scriptElem (st.nextId + 1)) = false := by
    simp [hasClass, scriptElem]
  unfold startFireworks
  simp only [he, hq, Bool.not_true, Option.isSome_none, Bool.false_eq_true, if_false]
  by_cases hw : st.windowFireworks = true
  · simp only [hw, if_true]
    obtain ⟨s1, h1, h2, h3, h4, h5, h6, h7⟩ := overlayCount_initFireworks
      { st with document := st.document.appendToBody (overlayElem st.nextId),
                nextId := st.nextId + 1 } (overlayElem st.nextId).id hw
    refine ⟨s1, ?_, ?_, h7, ?_, ?_, ?_⟩
    · simpa [hw] using h1
    · rw [h2]
      simp [overlayCount, Document.appendToBody, Document.elems, List.countP_append, hc1, hc2,
        List.countP_cons, hov]
    · rw [h6]
    · intro _
      exact ⟨h3, h4, h5⟩
    · intro hf
      cases hf
  · have hw' : st.windowFireworks = false := by simpa using hw
    simp only [hw', Bool.false_eq_true, if_false]
    refine ⟨_, rfl, ?_, rfl, ?_, ?_, ?_⟩
    · simp [overlayCount, Document.appendToBody, Document.appendToHead, Document.elems,
        List.countP_append, hc1, hc2, List.countP_cons, hov, hsc]
    · simp [hw']
    · intro hf
      cases hf
    · intro _
      exact ⟨rfl, rfl, by simp [overlayElem]⟩

/-- Claim C7: from every state with at most one overlay surface (as every state
of the lifecycle has: stopped, starting with a load waiting, or running),
`stopFireworks` returns without error, leaves no overlay surface and a `null`
engine handle, and a second `stopFireworks` right after returns without error
and leaves that state unchanged. -/
theorem stopFireworks_idempotent (st : State) (h : overlayCount st ≤ 1) :
    ∃ s1, stopFireworks st = Except.ok s1 ∧ overlayCount s1 = 0 ∧
      s1.fireworks = Handle.null ∧ stopFireworks s1 = Except.ok s1 := by
  refine ⟨_, stopFireworks_eq st, ?_, rfl, ?_⟩
  · exact countP_removeOverlay_eq_zero st.document h
  · rw [stopFireworks_eq]
    have h0 := countP_removeOverlay_eq_zero st.document h
    have hfix := removeOverlay_fixed (removeOverlay st.document)
      (query_none_of_countP _ _ h0) (querySelectorAllTag_removeOverlay _)
    simp only [hfix]

theorem stopFireworks_idempotent_witness :
    overlayCount runningState ≤ 1 ∧
    ∃ s1, stopFireworks runningState = Except.ok s1 ∧ overlayCount s1 = 0 ∧
      s1.fireworks = Handle.null ∧ stopFireworks s1 = Except.ok s1 :=
  ⟨by decide, stopFireworks_idempotent runningState (by decide)⟩

/-- Claim C5, evaluated where it fails: in `hostCanvasState` the document holds
a canvas of the host application that no engine of the overlay created;
`stopFireworks` halts the engine, sets the handle to `null` and removes the
overlay surface with its canvas, and it removes the host's canvas as well. -/
theorem stopFireworks_removes_host_canvas :
    hostCanvas ∈ hostCanvasState.document.elems ∧
    ∃ s1, stopFireworks hostCanvasState = Except.ok s1 ∧
      s1.document = { head := [], body := [] } ∧
      hostCanvas ∉ s1.document.elems ∧
      s1.fireworks = Handle.null ∧ runningCount s1 = 0 := by
  refine ⟨by decide, _, rfl, by decide, by decide, by decide, by decide⟩

/-- Claim C6, amended: from every state with `enabled` truthy and no overlay
surface, `startFireworks` returns without error, a second call right after
changes nothing, and the result holds exactly one overlay surface. When the
engine is available the calls start exactly one more engine instance and leave
the waiting loads as they were; when it is not yet available no engine instance
is constructed and one script load is left waiting for the new surface. -/
theorem startFireworks_twice (st : State)
    (he : truthy (getProp st.settings "enabled") = true) (h0 : overlayCount st = 0) :
    ∃ s1, startFireworks st = Except.ok s1 ∧ startFireworks s1 = Except.ok s1 ∧
      overlayCount s1 = 1 ∧
      (st.windowFireworks = true →
        runningCount s1 = runningCount st + 1 ∧ s1.pendingLoads = st.pendingLoads) ∧
      (st.windowFireworks = false →
        runningCount s1 = runningCount st ∧ s1.engines = st.engines ∧
        s1.pendingLoads = st.pendingLoads ++ [st.nextId]) := by
  obtain ⟨s1, h1, h2, h3, h4, h5, h6⟩ := startFireworks_create st he h0
  refine ⟨s1, h1, ?_, h2, ?_, ?_⟩
  · exact startFireworks_noop s1 (Or.inr (by omega))
  · intro hw
    obtain ⟨ha, _, hc⟩ := h5 hw
    refine ⟨?_, hc⟩
    simp [runningCount, ha, List.countP_append, List.countP_cons]
  · intro hw
    obtain ⟨ha, _, hc⟩ := h6 hw
    exact ⟨by simp [runningCount, ha], ha, hc⟩

theorem startFireworks_twice_witness :
    truthy (getProp idleState.settings "enabled") = true ∧ overlayCount idleState = 0 ∧
    ∃ s1, startFireworks idleState = Except.ok s1 ∧ startFireworks s1 = Except.ok s1 ∧
      overlayCount s1 = 1 ∧
      (idleState.windowFireworks = true →
        runningCount s1 = runningCount idleState + 1 ∧
        s1.pendingLoads = idleState.pendingLoads) ∧
      (idleState.windowFireworks = false →
        runningCount s1 = runningCount idleState ∧ s1.engines = idleState.engines ∧
        s1.pendingLoads = idleState.pendingLoads ++ [idleState.nextId]) :=
  ⟨by decide, by decide, startFireworks_twice idleState (by decide) (by decide)⟩

/-- Claim C6 fails as stated: in `freshState` (`enabled` is true, no overlay
surface, engine script not yet run) two calls of `startFireworks` leave one
overlay surface and no engine instance at all. -/
theorem no_engine_while_script_loads :
    truthy (getProp freshState.settings "enabled") = true ∧ overlayCount freshState = 0 ∧
    ∃ s1, startFireworks freshState = Except.ok s1 ∧ startFireworks s1 = Except.ok s1 ∧
      overlayCount s1 = 1 ∧ runningCount s1 = 0 ∧ s1.engines = [] :=
  ⟨by decide, by decide, _, rfl, rfl, by decide, by decide, by decide⟩

theorem onload_idle_running :
    onload { document := { head := [], body := [] }, windowFireworks := true } none =
      Except.ok runningState := by
  rfl

theorem saveSettings_keeps_slider_limits_witness :
    inSliderLimits invertedDelayState.settings = true ∧
    inSliderLimits (saveSettings invertedDelayState).settings = true ∧
    getProp (saveSettings invertedDelayState).settings "delayMin" = Val.num 60 ∧
    getProp (saveSettings invertedDelayState).settings "delayMax" = Val.num 400 := by
  have h : inSliderLimits invertedDelayState.settings = true := by
    simp [inSliderLimits, sliders, withinLimits, getProp, setProp, DEFAULT_SETTINGS,
      invertedDelayState]
    norm_num
  exact ⟨h, (saveSettings_keeps_slider_limits invertedDelayState h).1, by decide, by decide⟩

theorem countP_setRunning_false (es : List Engine) (a : Nat) (e : Engine)
    (h : es[a]? = some e) (hr : e.running = true) :
    (setRunning es a false).countP (fun x => x.running) + 1 =
      es.countP (fun x => x.running) := by
  induction es generalizing a with
  | nil => simp at h
  | cons x t ih =>
    cases a with
    | zero =>
      simp only [List.getElem?_cons_zero, Option.some.injEq] at h
      subst h
      simp [setRunning, List.countP_cons, hr]
    | succ n =>
      simp only [List.getElem?_cons_succ] at h
      have := ih n h
      simp only [setRunning, List.countP_cons]
      omega

theorem getElem?_append_new (es : List Engine) (e : Engine) :
    (es ++ [e])[es.length]? = some e := by
  simp

theorem startFireworks_cases (st : State) :
    ∃ s1, startFireworks st = Except.ok s1 ∧
      (s1 = st ∨
        (overlayCount st = 0 ∧ overlayCount s1 = 1 ∧
          s1.windowFireworks = st.windowFireworks ∧
          (st.windowFireworks = true →
            s1.engines = st.engines ++
              [{ container := st.nextId, options := engineOptions st.settings,
                 running := true }] ∧
            s1.fireworks = Handle.ref st.engines.length ∧
            s1.pendingLoads = st.pendingLoads) ∧
          (st.windowFireworks = false →
            s1.engines = st.engines ∧ s1.fireworks = st.fireworks ∧
            s1.pendingLoads = st.pendingLoads ++ [st.nextId]))) := by
  by_cases he : truthy (getProp st.settings "enabled") = true
  · by_cases h0 : overlayCount st = 0
    · obtain ⟨s1, h1, h2, _, h4, h5, h6⟩ := startFireworks_create st he h0
      exact ⟨s1, h1, Or.inr ⟨h0, h2, h4, h5, h6⟩⟩
    · exact ⟨st, startFireworks_noop st (Or.inr h0), Or.inl rfl⟩
  · exact ⟨st, startFireworks_noop st (Or.inl (by simpa using he)), Or.inl rfl⟩

theorem startFireworks_overlay (st : State) (h : overlayCount st ≤ 1) :
    ∃ s1, startFireworks st = Except.ok s1 ∧ overlayCount s1 ≤ 1 := by
  obtain ⟨s1, h1, h2 | h2⟩ := startFireworks_cases st
  · exact ⟨s1, h1, by rw [h2]; exact h⟩
  · exact ⟨s1, h1, by omega⟩

theorem startFireworks_coherent (st : State) (h : Coherent st) :
    ∃ s1, startFireworks st = Except.ok s1 ∧ Coherent s1 := by
  obtain ⟨s1, h1, h2 | ⟨h0, hov, _, hT, hF⟩⟩ := startFireworks_cases st
  · exact ⟨s1, h1, by rw [h2]; exact h⟩
  · refine ⟨s1, h1, ?_⟩
    obtain ⟨_, hb, hc, hd⟩ := h
    have hnoref : ∀ a, st.fireworks ≠ Handle.ref a := by
      intro a ha
      have := hc a ha
      omega
    have hrun0 : runningCount st = 0 := by
      rcases hb with hb | ⟨_, a, e, ha, _, _⟩
      · exact hb
      · exact absurd ha (hnoref a)
    have hpend : st.pendingLoads = [] := by
      by_contra hne
      have := (hd hne).1
      omega
    cases hw : st.windowFireworks with
    | true =>
      obtain ⟨he, hf, hp⟩ := hT hw
      refine ⟨by omega, Or.inr ⟨?_, st.engines.length,
        { container := st.nextId, options := engineOptions st.settings, running := true },
        hf, ?_, rfl⟩, fun _ _ => hov, ?_⟩
      · have : List.countP (fun e => e.running) st.engines = 0 := hrun0
        simp [runningCount, he, List.countP_append, List.countP_cons, this]
      · rw [he]
        exact getElem?_append_new _ _
      · intro hne
        rw [hp, hpend] at hne
        exact absurd rfl hne
    | false =>
      obtain ⟨he, hf, hp⟩ := hF hw
      refine ⟨by omega, Or.inl ?_, fun _ _ => hov, fun _ => ⟨hov, ?_, ?_⟩⟩
      · simpa [runningCount, he] using hrun0
      · intro a ha
        rw [hf] at ha
        exact hnoref a ha
      · rw [hp, hpend]
        rfl

theorem stopFireworks_overlay (st : State) (h : overlayCount st ≤ 1) :
    ∃ s1, stopFireworks st = Except.ok s1 ∧ overlayCount s1 ≤ 1 ∧
      s1.pendingLoads = st.pendingLoads := by
  refine ⟨_, stopFireworks_eq st, ?_, rfl⟩
  exact le_trans (countP_removeOverlay_le st.document) h

theorem stopFireworks_coherent (st : State) (h : Coherent st) (hp : st.pendingLoads = []) :
    ∃ s1, stopFireworks st = Except.ok s1 ∧ Coherent s1 ∧ s1.pendingLoads = [] := by
  refine ⟨_, stopFireworks_eq st, ?_, hp⟩
  obtain ⟨ha, hb, _, _⟩ := h
  have h0 : (removeOverlay st.document).elems.countP (hasClass "fireworks-container") = 0 :=
    countP_removeOverlay_eq_zero st.document ha
  refine ⟨?_, Or.inl ?_, ?_, ?_⟩
  · show (removeOverlay st.document).elems.countP (hasClass "fireworks-container") ≤ 1
    omega
  · show List.countP (fun e : Engine => e.running)
      (match st.fireworks with
       | Handle.ref a => setRunning st.engines a false
       | _ => st.engines) = 0
    rcases hb with hb | ⟨hb1, a, e, hf, hge, hr⟩
    · have hb' : List.countP (fun e => e.running) st.engines = 0 := hb
      cases hfw : st.fireworks with
      | ref a =>
        have := countP_setRunning_false_le st.engines a
        simp only
        omega
      | undefined => exact hb'
      | null => exact hb'
    · have hb' : List.countP (fun e => e.running) st.engines = 1 := hb1
      rw [hf]
      have := countP_setRunning_false st.engines a e hge hr
      simp only
      omega
  · intro a ha
    cases ha
  · intro hne
    exact absurd hp hne

theorem overlayCount_changeSetting (st : State) (k : String) (v : Val) :
    overlayCount (changeSetting st k v) = overlayCount st := rfl

theorem coherent_changeSetting (st : State) (k : String) (v : Val) (h : Coherent st) :
    Coherent (changeSetting st k v) := h

theorem pendingLoads_changeSetting (st : State) (k : String) (v : Val) :
    (changeSetting st k v).pendingLoads = st.pendingLoads := rfl

theorem overlayCount_saveSettings (st : State) (s : Obj) :
    overlayCount (saveSettings { st with settings := s }) = overlayCount st := rfl

theorem coherent_saveSettings (st : State) (s : Obj) (h : Coherent st) :
    Coherent (saveSettings { st with settings := s }) := h

theorem scriptOnload_overlay (st : State) (i : Nat) (h : overlayCount st ≤ 1) :
    ∃ s1, scriptOnload st i = Except.ok s1 ∧ overlayCount s1 ≤ 1 := by
  unfold scriptOnload
  cases hg : st.pendingLoads.get? i with
  | none => exact ⟨st, rfl, h⟩
  | some c =>
    obtain ⟨s1, h1, h2, _⟩ := overlayCount_initFireworks
      { st with windowFireworks := true, pendingLoads := st.pendingLoads.eraseIdx i } c rfl
    exact ⟨s1, h1, by rw [h2]; exact h⟩

theorem scriptOnload_coherent (st : State) (i : Nat) (h : Coherent st) :
    ∃ s1, scriptOnload st i = Except.ok s1 ∧ Coherent s1 := by
  unfold scriptOnload
  cases hg : st.pendingLoads.get? i with
  | none => exact ⟨st, rfl, h⟩
  | some c =>
    obtain ⟨s1, h1, h2, h3, h4, h5, _, _⟩ := overlayCount_initFireworks
      { st with windowFireworks := true, pendingLoads := st.pendingLoads.eraseIdx i } c rfl
    refine ⟨s1, h1, ?_⟩
    obtain ⟨_, hb, _, hd⟩ := h
    have hne : st.pendingLoads ≠ [] := by
      intro he
      rw [he] at hg
      simp at hg
    obtain ⟨hov, hnoref, hlen⟩ := hd hne
    have hrun0 : List.countP (fun e : Engine => e.running) st.engines = 0 := by
      rcases hb with hb | ⟨_, a, e, ha, _, _⟩
      · exact hb
      · exact absurd ha (hnoref a)
    have hov1 : overlayCount s1 = 1 := by rw [h2]; exact hov
    have hi : i = 0 := by
      have := List.get?_eq_some.mp hg
      obtain ⟨hlt, _⟩ := this
      omega
    refine ⟨by omega, Or.inr ⟨?_, st.engines.length,
      { container := c, options := engineOptions st.settings, running := true },
      h4, ?_, rfl⟩, fun _ _ => hov1, ?_⟩
    · simp [runningCount, h3, List.countP_append, List.countP_cons, hrun0]
    · rw [h3]
      exact getElem?_append_new _ _
    · intro hne2
      rw [h5] at hne2
      exfalso
      apply hne2
      subst hi
      cases hl : st.pendingLoads with
      | nil => rfl
      | cons x t =>
        rw [hl] at hlen
        simp only [List.length_cons] at hlen
        have : t = [] := List.length_eq_zero.mp (by omega)
        subst this
        rfl

theorem overlayCount_scriptFailed (st : State) (i : Nat) :
    overlayCount (scriptFailed st i) = overlayCount st := rfl

theorem coherent_scriptFailed (st : State) (i : Nat) (h : Coherent st) :
    Coherent (scriptFailed st i) := by
  obtain ⟨ha, hb, hc, hd⟩ := h
  refine ⟨ha, hb, hc, ?_⟩
  intro hne
  have hne0 : st.pendingLoads ≠ [] := by
    intro he
    apply hne
    show st.pendingLoads.eraseIdx i = []
    rw [he]
    rfl
  obtain ⟨h1, h2, h3⟩ := hd hne0
  refine ⟨h1, h2, ?_⟩
  show (st.pendingLoads.eraseIdx i).length = 1
  cases hl : st.pendingLoads with
  | nil => exact absurd hl hne0
  | cons x t =>
    rw [hl] at h3
    simp only [List.length_cons] at h3
    have ht : t = [] := List.length_eq_zero.mp (by omega)
    subst ht
    cases i with
    | zero =>
      exfalso
      apply hne
      show st.pendingLoads.eraseIdx 0 = []
      rw [hl]
      rfl
    | succ n => rfl

theorem step_overlay (st : State) (e : Event) (h : overlayCount st ≤ 1) :
    ∃ s1, step st e = Except.ok s1 ∧ overlayCount s1 ≤ 1 := by
  cases e with
  | start => exact startFireworks_overlay st h
  | stop =>
    obtain ⟨s1, h1, h2, _⟩ := stopFireworks_overlay st h
    exact ⟨s1, h1, h2⟩
  | change k v => exact ⟨_, rfl, h⟩
  | toggle v =>
    cases v with
    | true => exact startFireworks_overlay (changeSetting st "enabled" (Val.bool true)) h
    | false =>
      obtain ⟨s1, h1, h2, _⟩ :=
        stopFireworks_overlay (changeSetting st "enabled" (Val.bool false)) h
      exact ⟨s1, h1, h2⟩
  | slider k v =>
    obtain ⟨s1, h1, h2, _⟩ := stopFireworks_overlay (changeSetting st k (Val.num v)) h
    obtain ⟨s2, h3, h4⟩ := startFireworks_overlay s1 h2
    exact ⟨s2, by simp only [step, sliderOnChange, h1, h3], h4⟩
  | reset =>
    obtain ⟨s1, h1, h2, _⟩ := stopFireworks_overlay
      (saveSettings { st with settings := assignFrom [] DEFAULT_SETTINGS }) h
    obtain ⟨s2, h3, h4⟩ := startFireworks_overlay s1 h2
    exact ⟨s2, by simp only [step, resetOnClick, h1, h3], h4⟩
  | scriptLoaded i => exact scriptOnload_overlay st i h
  | scriptError i => exact ⟨_, rfl, h⟩
  | onunload =>
    obtain ⟨s1, h1, h2, _⟩ := stopFireworks_overlay st h
    exact ⟨s1, h1, h2⟩

theorem step_coherent (st : State) (e : Event) (h : Coherent st)
    (hq : callsStop e = true → st.pendingLoads = []) :
    ∃ s1, step st e = Except.ok s1 ∧ Coherent s1 := by
  cases e with
  | start => exact startFireworks_coherent st h
  | stop =>
    obtain ⟨s1, h1, h2, _⟩ := stopFireworks_coherent st h (hq rfl)
    exact ⟨s1, h1, h2⟩
  | change k v => exact ⟨_, rfl, coherent_changeSetting st k v h⟩
  | toggle v =>
    cases v with
    | true =>
      exact startFireworks_coherent _ (coherent_changeSetting st "enabled" (Val.bool true) h)
    | false =>
      obtain ⟨s1, h1, h2, _⟩ := stopFireworks_coherent _
        (coherent_changeSetting st "enabled" (Val.bool false) h) (hq rfl)
      exact ⟨s1, h1, h2⟩
  | slider k v =>
    obtain ⟨s1, h1, h2, _⟩ := stopFireworks_coherent _
      (coherent_changeSetting st k (Val.num v) h) (hq rfl)
    obtain ⟨s2, h3, h4⟩ := startFireworks_coherent s1 h2
    exact ⟨s2, by simp only [step, sliderOnChange, h1, h3], h4⟩
  | reset =>
    obtain ⟨s1, h1, h2, _⟩ := stopFireworks_coherent _
      (coherent_saveSettings st (assignFrom [] DEFAULT_SETTINGS) h) (hq rfl)
    obtain ⟨s2, h3, h4⟩ := startFireworks_coherent s1 h2
    exact ⟨s2, by simp only [step, resetOnClick, h1, h3], h4⟩
  | scriptLoaded i => exact scriptOnload_coherent st i h
  | scriptError i => exact ⟨_, rfl, coherent_scriptFailed st i h⟩
  | onunload =>
    obtain ⟨s1, h1, h2, _⟩ := stopFireworks_coherent st h (hq rfl)
    exact ⟨s1, h1, h2⟩

theorem run_overlay (evs : List Event) (st : State) (h : overlayCount st ≤ 1) :
    ∃ s1, run st evs = Except.ok s1 ∧ overlayCount s1 ≤ 1 := by
  induction evs generalizing st with
  | nil => exact ⟨st, rfl, h⟩
  | cons e es ih =>
    obtain ⟨s1, h1, h2⟩ := step_overlay st e h
    obtain ⟨s2, h3, h4⟩ := ih s1 h2
    exact ⟨s2, by simp only [run, h1, h3], h4⟩

theorem run_coherent (evs : List Event) (st : State) (h : Coherent st)
    (hq : stopsAfterLoads st evs = true) :
    ∃ s1, run st evs = Except.ok s1 ∧ Coherent s1 := by
  induction evs generalizing st with
  | nil => exact ⟨st, rfl, h⟩
  | cons e es ih =>
    simp only [stopsAfterLoads, Bool.and_eq_true, Bool.or_eq_true, Bool.not_eq_true',
      List.isEmpty_iff] at hq
    obtain ⟨hq1, hq2⟩ := hq
    have hstop : callsStop e = true → st.pendingLoads = [] := by
      intro hc
      rcases hq1 with hq1 | hq1
      · rw [hc] at hq1
        cases hq1
      · exact hq1
    obtain ⟨s1, h1, h2⟩ := step_coherent st e h hstop
    rw [h1] at hq2
    obtain ⟨s2, h3, h4⟩ := ih s1 h2 hq2
    exact ⟨s2, by simp only [run, h1, h3], h4⟩

theorem onload_coherent (host : Host) (R : Option Obj)
    (hfree : host.document.elems.countP (hasClass "fireworks-container") ≤ 1) :
    ∃ s0, onload host R = Except.ok s0 ∧ Coherent s0 := by
  have hinit : Coherent
      { settings := loadSettings R, saved := R, fireworks := Handle.undefined,
        document := host.document, engines := [],
        windowFireworks := host.windowFireworks, pendingLoads := [],
        nextId := freshId host.document } := by
    refine ⟨?_, Or.inl rfl, ?_, ?_⟩
    · exact hfree
    · intro a ha
      cases ha
    · intro hne
      exact absurd rfl hne
  unfold onload
  dsimp only
  split
  · exact startFireworks_coherent _ hinit
  · exact ⟨_, rfl, hinit⟩

/-- Activation in a host whose document holds at most one overlay surface
succeeds, every sequence of events from there runs without error, and every
state reached holds at most one overlay surface; when moreover no event of the
sequence calls `stopFireworks` while an engine-script load is waiting, at most
one engine instance is started and not stopped. -/
theorem reachable_overlay_unique (host : Host) (R : Option Obj)
    (hfree : host.document.elems.countP (hasClass "fireworks-container") ≤ 1) :
    ∃ s0, onload host R = Except.ok s0 ∧
      ∀ evs : List Event, ∃ s, run s0 evs = Except.ok s ∧ overlayCount s ≤ 1 ∧
        (stopsAfterLoads s0 evs = true → runningCount s ≤ 1) := by
  obtain ⟨s0, h0, hc⟩ := onload_coherent host R hfree
  refine ⟨s0, h0, ?_⟩
  intro evs
  obtain ⟨s, h1, h2⟩ := run_overlay evs s0 hc.1
  refine ⟨s, h1, h2, ?_⟩
  intro hq
  obtain ⟨s', h3, h4⟩ := run_coherent evs s0 hc hq
  rw [h1] at h3
  cases h3
  rcases h4.2.1 with h5 | ⟨h5, _⟩ <;> omega

theorem reachable_overlay_unique_witness :
    emptyHost.document.elems.countP (hasClass "fireworks-container") ≤ 1 ∧
    ∃ s0, onload emptyHost none = Except.ok s0 ∧
      ∀ evs : List Event, ∃ s, run s0 evs = Except.ok s ∧ overlayCount s ≤ 1 ∧
        (stopsAfterLoads s0 evs = true → runningCount s ≤ 1) :=
  ⟨by decide, reachable_overlay_unique emptyHost none (by decide)⟩

/-- Claim C4, evaluated where it fails: after activation in `emptyHost`, one
slider change while the engine script is still loading, followed by the
completion of the two script loads, leaves one overlay surface and two engine
instances that are started and not stopped; `onunload` then stops only the
engine the handle refers to, so one engine keeps running with no overlay and a
`null` handle. The same slider change in `loadedHost`, where the engine is
available and `initFireworks` runs at once, leaves exactly one engine. -/
theorem two_engines_after_change_during_load :
    (∃ s0 s s1, onload emptyHost none = Except.ok s0 ∧
      run s0 [Event.slider "gravity" 2, Event.scriptLoaded 0, Event.scriptLoaded 0] =
        Except.ok s ∧
      overlayCount s = 1 ∧ runningCount s = 2 ∧
      run s [Event.onunload] = Except.ok s1 ∧
      overlayCount s1 = 0 ∧ s1.fireworks = Handle.null ∧ runningCount s1 = 1) ∧
    (∃ s0 s, onload loadedHost none = Except.ok s0 ∧
      run s0 [Event.slider "gravity" 2] = Except.ok s ∧
      overlayCount s = 1 ∧ runningCount s = 1) :=
  ⟨⟨_, _, _, rfl, rfl, by decide, by decide, rfl, by decide, by decide, by decide⟩,
   ⟨_, _, rfl, rfl, by decide, by decide⟩⟩

/-! ## The reset action with objects by reference -/

theorem callMethod_settled (c : Call) (f : State → Except String State)
    (m0 m : Machine) (n : Nat) (s : State) (hs : Settled m0 m n)
    (hf : f m.state = Except.ok s) :
    ∃ m1, callMethod c f m = Except.ok m1 ∧ Settled m0 m1 n ∧ m1.state = s ∧
      m1.log = m.log ++ [c] := by
  obtain ⟨h1, h2, h3, h4⟩ := hs
  have hlt : m.settingsAddr < m.heap.length := by omega
  refine ⟨{ m with heap := m.heap.set m.settingsAddr s.settings, plugin := s,
                   log := m.log ++ [c] }, by simp only [callMethod, hf],
    ⟨h1, h2, ?_, ?_⟩, ?_, rfl⟩
  · show (m.heap.set m.settingsAddr s.settings).length = n + 1
    rw [List.length_set]
    exact h3
  · intro a ha
    have hne : m.settingsAddr ≠ a := by omega
    show (m.heap.set m.settingsAddr s.settings)[a]? = m0.heap[a]?
    rw [List.getElem?_set_ne hne]
    exact h4 a ha
  · show ({ s with settings := (m.heap.set m.settingsAddr s.settings).getD m.settingsAddr [] }
      : State) = s
    have : (m.heap.set m.settingsAddr s.settings).getD m.settingsAddr [] = s.settings := by
      rw [List.getD_eq_getElem?_getD, List.getElem?_set_self hlt]
      rfl
    rw [this]

theorem settled_after_copy (m : Machine) (copy : Obj) :
    Settled m { m with heap := m.heap ++ [copy], settingsAddr := m.heap.length }
      m.heap.length ∧
    ({ m with heap := m.heap ++ [copy], settingsAddr := m.heap.length } : Machine).state =
      { m.plugin with settings := copy } := by
  refine ⟨⟨rfl, rfl, by simp, ?_⟩, ?_⟩
  · intro a ha
    show (m.heap ++ [copy])[a]? = m.heap[a]?
    exact List.getElem?_append_left ha
  · show ({ m.plugin with settings := (m.heap ++ [copy]).getD m.heap.length [] } : State) = _
    have : (m.heap ++ [copy]).getD m.heap.length [] = copy := by
      rw [List.getD_eq_getElem?_getD]
      simp
    rw [this]

/-- Claim C9: from every state, whatever the in-memory settings, the reset
action returns without error and calls, in this order and each exactly once,
`saveSettings`, `stopFireworks`, `startFireworks` and `display`. It points
`this.settings` at a new object, so the object of the constant
`DEFAULT_SETTINGS` and every other object of the heap keep their content and
the constant is not mutated. The settings object and the record handed to
`saveData` hold the normalized copy of the constant, which for the content
`DEFAULT_SETTINGS` is `DEFAULT_SETTINGS` itself, on each of the 17 fields; the
plugin state reached is the one `resetOnClick` computes on values. -/
theorem reset_restores_defaults_once (m : Machine) (D : Obj)
    (hD : m.heap[m.defaultsAddr]? = some D) :
    ∃ m1 : Machine, resetOnClickByRef m = Except.ok m1 ∧
      m1.log = m.log ++
        [Call.saveSettings, Call.stopFireworks, Call.startFireworks, Call.display] ∧
      List.count Call.stopFireworks m1.log = List.count Call.stopFireworks m.log + 1 ∧
      List.count Call.startFireworks m1.log = List.count Call.startFireworks m.log + 1 ∧
      m1.defaultsAddr = m.defaultsAddr ∧ m1.heap[m1.defaultsAddr]? = some D ∧
      m1.settingsAddr ≠ m1.defaultsAddr ∧
      (∀ a, a < m.heap.length → m1.heap[a]? = m.heap[a]?) ∧
      m1.heap[m1.settingsAddr]? = some (normalize (assignFrom [] D)) ∧
      m1.state.settings = normalize (assignFrom [] D) ∧
      m1.state.saved = some (normalize (assignFrom [] D)) ∧
      (D = DEFAULT_SETTINGS →
        m1.state.settings = DEFAULT_SETTINGS ∧
        m1.state.saved = some DEFAULT_SETTINGS ∧
        parameterFields.all
          (fun k => decide (getProp m1.state.settings k = getProp DEFAULT_SETTINGS k)) = true ∧
        resetOnClick m.state = Except.ok m1.state) := by
  have hlt : m.defaultsAddr < m.heap.length := by
    obtain ⟨h, _⟩ := List.getElem?_eq_some.mp hD
    exact h
  have hcopy : m.heap.getD m.defaultsAddr [] = D := by
    rw [List.getD_eq_getElem?_getD, hD]
    rfl
  obtain ⟨hs1, hst1⟩ := settled_after_copy m (assignFrom [] D)
  obtain ⟨m2, hm2, hs2, hst2, hl2⟩ := callMethod_settled Call.saveSettings
    (fun s => Except.ok (saveSettings s)) m _ _ _ hs1 rfl
  obtain ⟨s3, hstop, hstop1, hstop2⟩ := stopFireworks_ok m2.state
  obtain ⟨m3, hm3, hs3, hst3, hl3⟩ := callMethod_settled Call.stopFireworks
    stopFireworks m m2 _ s3 hs2 hstop
  obtain ⟨s4, hstart, hstart1, hstart2⟩ := startFireworks_ok m3.state
  obtain ⟨m4, hm4, hs4, hst4, hl4⟩ := callMethod_settled Call.startFireworks
    startFireworks m m3 _ s4 hs3 hstart
  obtain ⟨m5, hm5, hs5, hst5, hl5⟩ := callMethod_settled Call.display
    Except.ok m m4 _ m4.state hs4 rfl
  have hrun : resetOnClickByRef m = Except.ok m5 := by
    unfold resetOnClickByRef
    simp only [hcopy, hm2, hm3, hm4, hm5]
  have hsettings : m5.state.settings = normalize (assignFrom [] D) := by
    rw [hst5, hst4, hstart1, hst3, hstop1, hst2, hst1]
    rfl
  have hsaved : m5.state.saved = some (normalize (assignFrom [] D)) := by
    rw [hst5, hst4, hstart2, hst3, hstop2, hst2, hst1]
    rfl
  obtain ⟨h51, h52, h53, h54⟩ := hs5
  have hcell : m5.heap[m5.settingsAddr]? = some (normalize (assignFrom [] D)) := by
    have hget : m5.heap.getD m5.settingsAddr [] = normalize (assignFrom [] D) := hsettings
    have hl : m5.settingsAddr < m5.heap.length := by omega
    rw [List.getD_eq_getElem?_getD, List.getElem?_eq_getElem hl] at hget
    rw [List.getElem?_eq_getElem hl]
    exact congrArg some hget
  refine ⟨m5, hrun, ?_, ?_, ?_, h51, ?_, ?_, h54, hcell, hsettings, hsaved, ?_⟩
  · rw [hl5, hl4, hl3, hl2]
    simp
  · rw [hl5, hl4, hl3, hl2]
    simp [List.count_append, List.count_cons]
  · rw [hl5, hl4, hl3, hl2]
    simp [List.count_append, List.count_cons]
  · rw [h51, h54 _ hlt]
    exact hD
  · rw [h51, h52]
    omega
  · intro hDef
    subst hDef
    have hn : normalize (assignFrom [] DEFAULT_SETTINGS) = DEFAULT_SETTINGS := by rfl
    rw [hn] at hsettings hsaved
    refine ⟨hsettings, hsaved, ?_, ?_⟩
    · rw [hsettings]
      simp
    · have e1 : resetOnClick m.state = Except.ok s4 := by
        have hst2' : m2.state =
            saveSettings { m.state with settings := assignFrom [] DEFAULT_SETTINGS } := by
          rw [hst2, hst1]
          rfl
        rw [hst2'] at hstop
        rw [hst3] at hstart
        simp only [resetOnClick, hstop, hstart]
      rw [e1, hst5, hst4]

theorem reset_restores_defaults_once_witness :
    modifiedMachine.heap[modifiedMachine.defaultsAddr]? = some DEFAULT_SETTINGS ∧
    ∃ m1 : Machine, resetOnClickByRef modifiedMachine = Except.ok m1 ∧
      m1.log = [Call.saveSettings, Call.stopFireworks, Call.startFireworks, Call.display] ∧
      m1.heap[m1.defaultsAddr]? = some DEFAULT_SETTINGS ∧
      m1.settingsAddr ≠ m1.defaultsAddr ∧
      m1.state.settings = DEFAULT_SETTINGS ∧
      m1.state.saved = some DEFAULT_SETTINGS := by
  refine ⟨rfl, ?_⟩
  obtain ⟨m1, h1, h2, _, _, _, h6, h7, _, _, _, _, h12⟩ :=
    reset_restores_defaults_once modifiedMachine DEFAULT_SETTINGS rfl
  exact ⟨m1, h1, h2, h6, h7, (h12 rfl).1, (h12 rfl).2.1⟩

end GlobalFireworks
